import Mathlib

/-!
# Verification of the Verifiable Banking Analytics Query Pipeline

A shallow embedding, in Lean 4, of the core query pipeline of the
`projet_talan5` repository: the local policy decision engine
(`agent/policy_client.py`), the SQL safety validator, normalizer and hasher
(`agent/sql_validator.py`), the metric-SQL compiler, anonymity clause and
narrative redaction (`agent/graph.py`), the data-product quality gate
(`agent/quality.py`), the evidence pack (`agent/evidence.py`), and the
orchestrating state machine (`agent/graph.py`, `process_request`).

Python strings are modelled as `List Char` (wrapped in `String` at
boundaries); Python dicts whose keys are fixed are modelled as structures
with `Option` fields recording key presence; SQL-engine calls, the catalog,
the OPA endpoint, the LLM and the natural-language heuristics that feed the
pipeline are abstracted as explicit environment parameters, exactly the
collaborator boundary drawn in the specification.  `hashlib.sha256` is
embedded as a full executable SHA-256 over UTF-8 bytes.
-/

/-! ## Character-level utilities

Python's `\s` class (ASCII range) and `str.strip` / `str.upper` / `str.lower`
for the ASCII alphabet, which is the alphabet all the SQL fragments use. -/

/-- The whitespace characters matched by Python's `\s` (ASCII) and stripped
by `str.strip`. -/
def isWsChar (c : Char) : Bool :=
  c = ' ' || c = '\t' || c = '\n' || c = '\r' || c = '\x0b' || c = '\x0c'

/-- ASCII uppercase conversion, the effect of Python `str.upper` on the
ASCII fragment used by the pipeline. -/
def upChar (c : Char) : Char :=
  if 'a' ≤ c ∧ c ≤ 'z' then Char.ofNat (c.toNat - 32) else c

/-- ASCII lowercase conversion (`str.lower`). -/
def lowChar (c : Char) : Char :=
  if 'A' ≤ c ∧ c ≤ 'Z' then Char.ofNat (c.toNat + 32) else c

/-- `str.upper` on a character list. -/
def upperL (l : List Char) : List Char := l.map upChar

/-- `str.lower` on a character list. -/
def lowerL (l : List Char) : List Char := l.map lowChar

/-- The word characters of Python's regex `\w`: `[A-Za-z0-9_]`. -/
def isWordChar (c : Char) : Bool :=
  ('A' ≤ c && c ≤ 'Z') || ('a' ≤ c && c ≤ 'z') || ('0' ≤ c && c ≤ '9') || c = '_'

/-- Boolean prefix test on character lists. -/
def isPrefixL : List Char → List Char → Bool
  | [], _ => true
  | _ :: _, [] => false
  | p :: ps, c :: cs => p = c && isPrefixL ps cs

/-- Boolean substring test: Python's `pat in s`. -/
def containsL (pat : List Char) : List Char → Bool
  | [] => isPrefixL pat []
  | c :: cs => isPrefixL pat (c :: cs) || containsL pat cs

theorem isPrefixL_iff (pat l : List Char) : isPrefixL pat l = true ↔ pat <+: l := by
  induction pat generalizing l with
  | nil => simp [isPrefixL]
  | cons p ps ih =>
    cases l with
    | nil => simp [isPrefixL]
    | cons c cs =>
      simp only [isPrefixL, Bool.and_eq_true, decide_eq_true_eq, ih,
        List.cons_prefix_cons]

theorem containsL_iff (pat l : List Char) : containsL pat l = true ↔ pat <:+: l := by
  induction l with
  | nil =>
    cases pat <;> simp [containsL, isPrefixL]
  | cons c cs ih =>
    simp only [containsL, Bool.or_eq_true, isPrefixL_iff, ih]
    constructor
    · rintro (h | h)
      · exact h.isInfix
      · exact List.infix_cons h
    · intro h
      rcases List.infix_cons_iff.mp h with h | h
      · exact Or.inl h
      · exact Or.inr h

theorem containsL_of_part {pat l : List Char} (h : pat <:+: l) :
    containsL pat l = true := (containsL_iff pat l).mpr h

theorem not_containsL_of_not_part {pat l : List Char} (h : ¬ pat <:+: l) :
    containsL pat l = false := by
  cases hc : containsL pat l
  · rfl
  · exact absurd ((containsL_iff pat l).mp hc) h

/-! ## SHA-256

An executable embedding of the digest `hashlib.sha256(...).hexdigest()` used
by `hash_sql`, over the UTF-8 bytes of the input string.  32-bit words are
natural numbers kept below `2^32`. -/

/-- UTF-8 encoding of one character, as byte values. -/
def utf8Char (c : Char) : List Nat :=
  let n := c.toNat
  if n < 128 then [n]
  else if n < 2048 then
    [192 + n / 64, 128 + n % 64]
  else if n < 65536 then
    [224 + n / 4096, 128 + (n / 64) % 64, 128 + n % 64]
  else
    [240 + n / 262144, 128 + (n / 4096) % 64, 128 + (n / 64) % 64, 128 + n % 64]

/-- UTF-8 encoding of a string's characters (`str.encode('utf-8')`). -/
def utf8Bytes (l : List Char) : List Nat := l.flatMap utf8Char

/-- Truncated 32-bit addition. -/
def add32 (a b : Nat) : Nat := (a + b) % 4294967296

/-- 32-bit right rotation. -/
def rotr32 (n x : Nat) : Nat := ((x >>> n) ||| (x <<< (32 - n))) % 4294967296

/-- Bitwise complement within 32 bits. -/
def not32 (x : Nat) : Nat := x ^^^ 4294967295

def sigBig0 (x : Nat) : Nat := (rotr32 2 x) ^^^ (rotr32 13 x) ^^^ (rotr32 22 x)
def sigBig1 (x : Nat) : Nat := (rotr32 6 x) ^^^ (rotr32 11 x) ^^^ (rotr32 25 x)
def sigSmall0 (x : Nat) : Nat := (rotr32 7 x) ^^^ (rotr32 18 x) ^^^ (x >>> 3)
def sigSmall1 (x : Nat) : Nat := (rotr32 17 x) ^^^ (rotr32 19 x) ^^^ (x >>> 10)
def chFn (x y z : Nat) : Nat := (x &&& y) ^^^ (not32 x &&& z)
def majFn (x y z : Nat) : Nat := (x &&& y) ^^^ (x &&& z) ^^^ (y &&& z)

/-- The SHA-256 round constants. -/
def shaK : Array Nat := #[
  1116352408, 1899447441, 3049323471, 3921009573, 961987163, 1508970993,
  2453635748, 2870763221, 3624381080, 310598401, 607225278, 1426881987,
  1925078388, 2162078206, 2614888103, 3248222580, 3835390401, 4022224774,
  264347078, 604807628, 770255983, 1249150122, 1555081692, 1996064986,
  2554220882, 2821834349, 2952996808, 3210313671, 3336571891, 3584528711,
  113926993, 338241895, 666307205, 773529912, 1294757372, 1396182291,
  1695183700, 1986661051, 2177026350, 2456956037, 2730485921, 2820302411,
  3259730800, 3345764771, 3516065817, 3600352804, 4094571909, 275423344,
  430227734, 506948616, 659060556, 883997877, 958139571, 1322822218,
  1537002063, 1747873779, 1955562222, 2024104815, 2227730452, 2361852424,
  2428436474, 2756734187, 3204031479, 3329325298]

/-- The SHA-256 initial hash state. -/
def shaH0 : List Nat :=
  [1779033703, 3144134277, 1013904242, 2773480762,
   1359893119, 2600822924, 528734635, 1541459225]

/-- Big-endian bytes of a 64-bit length field. -/
def be64 (n : Nat) : List Nat :=
  [(n >>> 56) % 256, (n >>> 48) % 256, (n >>> 40) % 256, (n >>> 32) % 256,
   (n >>> 24) % 256, (n >>> 16) % 256, (n >>> 8) % 256, n % 256]

/-- SHA-256 message padding: `0x80`, zeros to 56 mod 64, 8 length bytes. -/
def shaPad (msg : List Nat) : List Nat :=
  let L := msg.length
  msg ++ [128] ++ List.replicate ((119 - L % 64) % 64) 0 ++ be64 (8 * L)

/-- Group bytes into big-endian 32-bit words. -/
def bytesToWords : List Nat → List Nat
  | b0 :: b1 :: b2 :: b3 :: rest =>
      (((b0 * 256 + b1) * 256 + b2) * 256 + b3) :: bytesToWords rest
  | _ => []

/-- Split a word list into 16-word blocks (structural, so the kernel can
evaluate full digests). -/
def words16 : List Nat → List (List Nat)
  | a1 :: a2 :: a3 :: a4 :: a5 :: a6 :: a7 :: a8 ::
    a9 :: a10 :: a11 :: a12 :: a13 :: a14 :: a15 :: a16 :: rest =>
      [a1, a2, a3, a4, a5, a6, a7, a8, a9, a10, a11, a12, a13, a14, a15, a16]
        :: words16 rest
  | [] => []
  | l => [l]

/-- Extend a 16-word block to the 64-entry message schedule. -/
def shaSchedule (w16 : Array Nat) : Array Nat :=
  (List.range 48).foldl
    (fun w i =>
      w.push (add32 (add32 (sigSmall1 w[i + 14]!) w[i + 9]!)
                    (add32 (sigSmall0 w[i + 1]!) w[i]!)))
    w16

/-- One SHA-256 compression round. -/
def shaRound (w : Array Nat) (st : List Nat) (i : Nat) : List Nat :=
  match st with
  | [a, b, c, d, e, f, g, h] =>
    let t1 := add32 h (add32 (sigBig1 e) (add32 (chFn e f g) (add32 shaK[i]! w[i]!)))
    let t2 := add32 (sigBig0 a) (majFn a b c)
    [add32 t1 t2, a, b, c, add32 d t1, e, f, g]
  | other => other

/-- Compress one block into the running hash state. -/
def shaCompress (st : List Nat) (block : List Nat) : List Nat :=
  let w := shaSchedule block.toArray
  let fin := (List.range 64).foldl (shaRound w) st
  (st.zip fin).map (fun p => add32 p.1 p.2)

/-- SHA-256 of a byte list, as the 8-word final state. -/
def sha256Words (msg : List Nat) : List Nat :=
  (words16 (bytesToWords (shaPad msg))).foldl shaCompress shaH0

/-- Lowercase hex digit. -/
def hexDigit (n : Nat) : Char :=
  if n < 10 then Char.ofNat (48 + n) else Char.ofNat (87 + n)

/-- Lowercase hex of one 32-bit word, 8 digits. -/
def hexWord (w : Nat) : List Char :=
  [hexDigit ((w >>> 28) % 16), hexDigit ((w >>> 24) % 16),
   hexDigit ((w >>> 20) % 16), hexDigit ((w >>> 16) % 16),
   hexDigit ((w >>> 12) % 16), hexDigit ((w >>> 8) % 16),
   hexDigit ((w >>> 4) % 16), hexDigit (w % 16)]

/-- `hashlib.sha256(bytes).hexdigest()`. -/
def sha256Hex (msg : List Nat) : List Char :=
  (sha256Words msg).flatMap hexWord

set_option maxRecDepth 4000

/-- Standard test vector: SHA-256 of `"abc"`. -/
theorem sha256Hex_abc :
    sha256Hex (utf8Bytes "abc".data) =
      "ba7816bf8f01cfea414140de5dae2223b00361a396177a9cb410ff61f20015ad".data := by
  decide

/-! ## SQL normalization (`agent/sql_validator.py`, `normalize_sql` / `hash_sql`)

`normalize_sql` is `re.sub(r'\s+', ' ', sql.strip()).upper()`: strip both
ends, collapse each internal whitespace run to one space, uppercase.  The
collapse is embedded as a single pass with a previous-char-was-whitespace
flag, exactly the effect of the regex substitution. -/

/-- `str.rstrip()`-style removal of trailing whitespace. -/
def trimR (l : List Char) : List Char := (l.reverse.dropWhile isWsChar).reverse

/-- Python `str.strip()`: drop trailing then leading whitespace. -/
def stripWs (l : List Char) : List Char := (trimR l).dropWhile isWsChar

/-- One pass of `re.sub(r'\s+', ' ', ·)`: each maximal whitespace run becomes
a single `' '`.  The flag records whether the previous character was part of
a whitespace run already emitted. -/
def collapseAux : Bool → List Char → List Char
  | _, [] => []
  | prevWs, c :: cs =>
    if isWsChar c then
      (if prevWs then collapseAux true cs else ' ' :: collapseAux true cs)
    else c :: collapseAux false cs

/-- `normalize_sql` from `agent/sql_validator.py`. -/
def normalize_sql (sql : String) : String :=
  ⟨upperL (collapseAux false (stripWs sql.data))⟩

/-- `hash_sql` from `agent/sql_validator.py`:
`hashlib.sha256(normalize_sql(sql).encode('utf-8')).hexdigest()`. -/
def hash_sql (sql : String) : String :=
  ⟨sha256Hex (utf8Bytes (normalize_sql sql).data)⟩

/-! ### Words of a string

`wordsW` is the word decomposition Python's `str.split()` performs: split on
whitespace and drop empty pieces.  It does not appear in `normalize_sql`'s
code; it is the canonical exposure of which whitespace edits normalization is
invariant under, proved below (`collapse_strip_eq_interWords`). -/

/-- Split at every whitespace character, keeping empty segments. -/
def splitW : List Char → List (List Char)
  | [] => [[]]
  | c :: cs =>
    if isWsChar c then [] :: splitW cs
    else (splitW cs).modifyHead (fun w => c :: w)

/-- The whitespace-separated words of a character list (`str.split()`). -/
def wordsW (l : List Char) : List (List Char) :=
  (splitW l).filter (fun w => !w.isEmpty)

/-- Words, each uppercased: the case-insensitive word content of a string. -/
def wordsUpper (l : List Char) : List (List Char) := (wordsW l).map upperL

/-- Join words with single spaces (the canonical spacing). -/
def interWords : List (List Char) → List Char
  | [] => []
  | [w] => w
  | w :: ws => w ++ ' ' :: interWords ws

theorem splitW_ne_nil (l : List Char) : splitW l ≠ [] := by
  induction l with
  | nil => simp [splitW]
  | cons c cs ih =>
    simp only [splitW]
    split
    · simp
    · cases h : splitW cs with
      | nil => exact absurd h ih
      | cons w ws => simp [List.modifyHead]

theorem wordsW_nil : wordsW [] = [] := by simp [wordsW, splitW]

theorem wordsW_cons_ws {c : Char} (h : isWsChar c = true) (cs : List Char) :
    wordsW (c :: cs) = wordsW cs := by
  simp [wordsW, splitW, h]

theorem wordsW_cons_word {c : Char} (h : isWsChar c = false) (cs : List Char) :
    wordsW (c :: cs) =
      (c :: cs.takeWhile (fun d => !isWsChar d)) ::
        wordsW (cs.dropWhile (fun d => !isWsChar d)) := by
  induction cs generalizing c with
  | nil => simp [wordsW, splitW, h]
  | cons d ds ih =>
    by_cases hd : isWsChar d = true
    · have h1 : splitW (c :: d :: ds) = [c] :: splitW ds := by
        simp [splitW, h, hd]
      have h2 : wordsW (d :: ds) = wordsW ds := wordsW_cons_ws hd ds
      rw [show (d :: ds).takeWhile (fun x => !isWsChar x) = [] by
            simp [List.takeWhile_cons, hd],
          show (d :: ds).dropWhile (fun x => !isWsChar x) = d :: ds by
            simp [List.dropWhile_cons, hd],
          h2]
      simp only [wordsW, h1, List.filter]
      simp [h2, wordsW]
    · have hd' : isWsChar d = false := by simpa using hd
      obtain ⟨w, ws, hs⟩ : ∃ w ws, splitW ds = w :: ws := by
        cases hsp : splitW ds with
        | nil => exact absurd hsp (splitW_ne_nil ds)
        | cons w ws => exact ⟨w, ws, rfl⟩
      have e1 : splitW (d :: ds) = (d :: w) :: ws := by
        simp [splitW, hd', hs, List.modifyHead]
      have e2 : splitW (c :: d :: ds) = (c :: d :: w) :: ws := by
        simp [splitW, h, hd', hs, List.modifyHead]
      have ihd := ih hd'
      have l1 : wordsW (d :: ds) = (d :: w) :: ws.filter (fun x => !x.isEmpty) := by
        simp [wordsW, e1, List.filter]
      rw [l1] at ihd
      simp only [List.cons.injEq] at ihd
      obtain ⟨⟨-, hw⟩, hws⟩ := ihd
      have g1 : wordsW (c :: d :: ds) =
          (c :: d :: w) :: ws.filter (fun x => !x.isEmpty) := by
        simp [wordsW, e2, List.filter]
      rw [g1, hws, hw]
      simp [List.takeWhile_cons, List.dropWhile_cons, hd']

theorem dropWhile_head_false {p : Char → Bool} {l d : List Char} {w : Char}
    (h : l.dropWhile p = w :: d) : p w = false := by
  induction l with
  | nil => simp at h
  | cons c cs ih =>
    rw [List.dropWhile_cons] at h
    split at h
    · exact ih h
    · rename_i hpc
      cases h
      simpa using hpc

theorem trimR_eq_nil_of_ws {l : List Char} (h : ∀ c ∈ l, isWsChar c = true) :
    trimR l = [] := by
  unfold trimR
  rw [List.dropWhile_eq_nil_iff.mpr (fun c hc => by
    simpa using h c (List.mem_reverse.mp hc))]
  rfl

theorem trimR_of_all_word {l : List Char} (h : ∀ c ∈ l, isWsChar c = false) :
    trimR l = l := by
  unfold trimR
  cases hl : l.reverse with
  | nil => simpa using congrArg List.reverse hl
  | cons c cs =>
    have hc : isWsChar c = false := by
      have : c ∈ l := by
        rw [← List.mem_reverse, hl]; exact List.mem_cons_self c cs
      exact h c this
    rw [List.dropWhile_cons, hc]
    simp [← hl]

theorem trimR_append_ws {a d : List Char} (h : ∀ c ∈ d, isWsChar c = true) :
    trimR (a ++ d) = trimR a := by
  unfold trimR
  rw [List.reverse_append, List.dropWhile_append,
    if_pos (by
      simp only [List.isEmpty_iff]
      exact List.dropWhile_eq_nil_iff.mpr (fun c hc => by
        simpa using h c (List.mem_reverse.mp hc)))]

theorem trimR_append_of_mem {a d : List Char} (h : ∃ c ∈ d, isWsChar c = false) :
    trimR (a ++ d) = a ++ trimR d := by
  unfold trimR
  rw [List.reverse_append, List.dropWhile_append,
    if_neg (by
      simp only [List.isEmpty_iff]
      intro hnil
      obtain ⟨c, hc, hcw⟩ := h
      have := List.dropWhile_eq_nil_iff.mp hnil c (List.mem_reverse.mpr hc)
      simp [hcw] at this)]
  simp

theorem trimR_cons_word {c : Char} {cs : List Char} (h : isWsChar c = false) :
    trimR (c :: cs) = c :: trimR cs := by
  by_cases hex : ∃ x ∈ cs, isWsChar x = false
  · simpa using trimR_append_of_mem (a := [c]) hex
  · have hall : ∀ x ∈ cs, isWsChar x = true := by
      intro x hx
      by_contra hx'
      exact hex ⟨x, hx, by simpa using hx'⟩
    rw [trimR_eq_nil_of_ws hall]
    have : trimR ([c] ++ cs) = trimR [c] := trimR_append_ws hall
    simpa [trimR_of_all_word (l := [c]) (by simpa using h)] using this

theorem stripWs_cons_ws {c : Char} {cs : List Char} (h : isWsChar c = true) :
    stripWs (c :: cs) = stripWs cs := by
  unfold stripWs
  by_cases hex : ∃ x ∈ cs, isWsChar x = false
  · rw [show (c :: cs) = [c] ++ cs from rfl, trimR_append_of_mem hex]
    simp [List.dropWhile_cons, h]
  · have hall : ∀ x ∈ cs, isWsChar x = true := by
      intro x hx
      by_contra hx'
      exact hex ⟨x, hx, by simpa using hx'⟩
    rw [trimR_eq_nil_of_ws hall,
      trimR_eq_nil_of_ws (l := c :: cs) (by
        intro x hx
        rcases List.mem_cons.mp hx with hx | hx
        · subst hx; exact h
        · exact hall x hx)]

theorem collapseAux_true_eq (l : List Char) :
    collapseAux true l = collapseAux false (l.dropWhile isWsChar) := by
  induction l with
  | nil => simp [collapseAux]
  | cons c cs ih =>
    by_cases hc : isWsChar c = true
    · simp [collapseAux, hc, List.dropWhile_cons, ih]
    · have hc' : isWsChar c = false := by simpa using hc
      simp [collapseAux, hc', List.dropWhile_cons]

theorem collapseAux_append_words {t : List Char}
    (h : ∀ c ∈ t, isWsChar c = false) (x : List Char) :
    collapseAux false (t ++ x) = t ++ collapseAux false x := by
  induction t with
  | nil => simp
  | cons c cs ih =>
    have hc := h c (List.mem_cons_self c cs)
    simp only [List.cons_append, collapseAux, hc, Bool.false_eq_true, if_false,
      List.cons.injEq, true_and]
    exact ih (fun d hd => h d (List.mem_cons_of_mem c hd))

theorem wordsW_eq_nil_of_ws {l : List Char} (h : ∀ c ∈ l, isWsChar c = true) :
    wordsW l = [] := by
  induction l with
  | nil => exact wordsW_nil
  | cons c cs ih =>
    rw [wordsW_cons_ws (h c (List.mem_cons_self c cs))]
    exact ih (fun d hd => h d (List.mem_cons_of_mem c hd))

theorem wordsW_ne_nil {l : List Char} (h : ∃ c ∈ l, isWsChar c = false) :
    wordsW l ≠ [] := by
  induction l with
  | nil => simp at h
  | cons c cs ih =>
    by_cases hc : isWsChar c = true
    · rw [wordsW_cons_ws hc]
      apply ih
      obtain ⟨x, hx, hxw⟩ := h
      rcases List.mem_cons.mp hx with hx | hx
      · subst hx; simp [hc] at hxw
      · exact ⟨x, hx, hxw⟩
    · rw [wordsW_cons_word (by simpa using hc)]
      simp

theorem interWords_cons_ne {w : List Char} {ws : List (List Char)}
    (h : ws ≠ []) : interWords (w :: ws) = w ++ ' ' :: interWords ws := by
  cases ws with
  | nil => exact absurd rfl h
  | cons a as => rfl

theorem collapse_strip_aux :
    ∀ (n : Nat) (l : List Char), l.length ≤ n →
      collapseAux false (stripWs l) = interWords (wordsW l) := by
  intro n
  induction n with
  | zero =>
    intro l hl
    have : l = [] := List.eq_nil_of_length_eq_zero (Nat.le_zero.mp hl)
    subst this
    simp [stripWs, trimR, wordsW, splitW, collapseAux, interWords]
  | succ n ih =>
    intro l hl
    match l with
    | [] => simp [stripWs, trimR, wordsW, splitW, collapseAux, interWords]
    | c :: cs =>
      have hcs : cs.length ≤ n := by simpa using hl
      by_cases hc : isWsChar c = true
      · rw [stripWs_cons_ws hc, wordsW_cons_ws hc]
        exact ih cs hcs
      · have hc' : isWsChar c = false := by simpa using hc
        have htw : ∀ x ∈ cs.takeWhile (fun d => !isWsChar d), isWsChar x = false := by
          intro x hx
          simpa using List.mem_takeWhile_imp hx
        have hlhs : stripWs (c :: cs) = c :: trimR cs := by
          unfold stripWs
          rw [trimR_cons_word hc', List.dropWhile_cons, hc']
          simp
        rw [hlhs, wordsW_cons_word hc']
        have hsplit := List.takeWhile_append_dropWhile
          (p := fun d => !isWsChar d) (l := cs)
        cases hd : cs.dropWhile (fun d => !isWsChar d) with
        | nil =>
          have hcs_eq : cs = cs.takeWhile (fun d => !isWsChar d) := by
            conv_lhs => rw [← hsplit]
            simp [hd]
          rw [wordsW_nil]
          have : trimR cs = cs := trimR_of_all_word (by
            intro x hx
            exact htw x (hcs_eq ▸ hx))
          rw [this]
          conv_lhs => rw [hcs_eq]
          simp only [collapseAux, hc', Bool.false_eq_true, if_false]
          rw [show (cs.takeWhile (fun d => !isWsChar d)) =
                (cs.takeWhile (fun d => !isWsChar d)) ++ [] by simp,
            collapseAux_append_words htw]
          simp [collapseAux, interWords]
        | cons w d2 =>
          have hw : isWsChar w = true := by
            have := dropWhile_head_false hd
            simpa using this
          have hd2len : d2.length ≤ n := by
            have h1 : (cs.dropWhile (fun d => !isWsChar d)).length ≤ cs.length :=
              (List.dropWhile_suffix _).length_le
            rw [hd] at h1
            simp only [List.length_cons] at h1
            omega
          by_cases hex : ∃ x ∈ d2, isWsChar x = false
          · -- a further word exists after the whitespace run
            have htrim : trimR cs =
                cs.takeWhile (fun d => !isWsChar d) ++ w :: trimR d2 := by
              conv_lhs => rw [← hsplit, hd]
              rw [show (cs.takeWhile (fun d => !isWsChar d)) ++ w :: d2 =
                    ((cs.takeWhile (fun d => !isWsChar d)) ++ [w]) ++ d2 by simp,
                trimR_append_of_mem hex]
              simp
            rw [htrim]
            simp only [collapseAux, hc', Bool.false_eq_true, if_false]
            rw [collapseAux_append_words htw]
            simp only [collapseAux, hw, if_true]
            rw [collapseAux_true_eq]
            have hih : collapseAux false (stripWs d2) = interWords (wordsW d2) :=
              ih d2 hd2len
            rw [show (trimR d2).dropWhile isWsChar = stripWs d2 from rfl, hih,
              wordsW_cons_ws hw,
              interWords_cons_ne (wordsW_ne_nil hex)]
            simp
          · -- everything after the word is whitespace
            have hall : ∀ x ∈ w :: d2, isWsChar x = true := by
              intro x hx
              rcases List.mem_cons.mp hx with hx | hx
              · subst hx; exact hw
              · by_contra hx'
                exact hex ⟨x, hx, by simpa using hx'⟩
            have htrim : trimR cs = cs.takeWhile (fun d => !isWsChar d) := by
              conv_lhs => rw [← hsplit, hd]
              rw [trimR_append_ws hall]
              exact trimR_of_all_word htw
            rw [htrim, wordsW_cons_ws hw, wordsW_eq_nil_of_ws (by
              intro x hx
              exact hall x (List.mem_cons_of_mem w hx))]
            simp only [collapseAux, hc', Bool.false_eq_true, if_false]
            rw [show (cs.takeWhile (fun d => !isWsChar d)) =
                  (cs.takeWhile (fun d => !isWsChar d)) ++ [] by simp,
              collapseAux_append_words htw]
            simp [collapseAux, interWords]

/-- `re.sub(r'\s+', ' ', s.strip())` is exactly the single-space join of the
whitespace-separated words of `s`. -/
theorem collapse_strip_eq_interWords (l : List Char) :
    collapseAux false (stripWs l) = interWords (wordsW l) :=
  collapse_strip_aux l.length l le_rfl

theorem upperL_interWords (ws : List (List Char)) :
    upperL (interWords ws) = interWords (ws.map upperL) := by
  induction ws with
  | nil => rfl
  | cons w ws ih =>
    cases ws with
    | nil => rfl
    | cons a as =>
      have hsp : upChar ' ' = ' ' := rfl
      simp only [interWords, upperL, List.map_append, List.map_cons, hsp]
      simp only [upperL] at ih
      rw [ih]
      simp only [List.map_cons, upperL]

/-- `normalize_sql` depends only on the case-normalized word content. -/
theorem normalize_sql_eq_interWords (s : String) :
    normalize_sql s = ⟨interWords (wordsUpper s.data)⟩ := by
  unfold normalize_sql wordsUpper
  rw [collapse_strip_eq_interWords, upperL_interWords]

/-- C6: `Hash(Normalize(sql))` is invariant under whitespace-run and case
changes — any two statements with the same case-normalized word content hash
identically — and semantically distinct statements (the specification's
differing-column-lists example) produce different digests. -/
theorem claim_C6_hash_canonicalization :
    (∀ s1 s2 : String, wordsUpper s1.data = wordsUpper s2.data →
        hash_sql s1 = hash_sql s2) ∧
    hash_sql "SELECT state, product FROM dp_complaints" ≠
      hash_sql "SELECT state FROM dp_complaints" := by
  constructor
  · intro s1 s2 h
    unfold hash_sql
    rw [normalize_sql_eq_interWords, normalize_sql_eq_interWords, h]
  · decide

/-- Witness for C6 at a concrete whitespace/case variant pair. -/
theorem claim_C6_hash_canonicalization_witness :
    wordsUpper "select  state\nfrom   dp_complaints".data =
      wordsUpper " SELECT STATE FROM DP_COMPLAINTS ".data ∧
    hash_sql "select  state\nfrom   dp_complaints" =
      hash_sql " SELECT STATE FROM DP_COMPLAINTS " :=
  have h : wordsUpper "select  state\nfrom   dp_complaints".data =
      wordsUpper " SELECT STATE FROM DP_COMPLAINTS ".data := by decide
  ⟨h, claim_C6_hash_canonicalization.1 _ _ h⟩

/-! ## Policy decision engine (`agent/policy_client.py`)

`_local_policy_eval` and its two constraint-merge helpers, with the fixed
`ROLE_CONFIGS` / `SENSITIVITY_ORDER` tables.  Python constraint dicts become
a structure of `Option` fields (a `none` field is an absent key); the
caller-supplied `policy_overrides` dict likewise. -/

/-- A requested column with its sensitivity tier. -/
structure ColumnRef where
  name : String
  sensitivity : String
deriving DecidableEq

/-- One row of `ROLE_CONFIGS`. -/
structure RoleConfig where
  level : Nat
  can_export : Bool
  max_sensitivity : String
deriving DecidableEq

/-- The fixed `ROLE_CONFIGS` table (`.get` on the dict). -/
def ROLE_CONFIGS (role : String) : Option RoleConfig :=
  if role = "branch_manager" then some ⟨1, false, "LOW"⟩
  else if role = "risk_officer" then some ⟨2, true, "MED"⟩
  else if role = "compliance_officer" then some ⟨3, true, "HIGH"⟩
  else if role = "auditor" then some ⟨4, true, "HIGH"⟩
  else if role = "data_analyst" then some ⟨1, false, "LOW"⟩
  else none

/-- `SENSITIVITY_ORDER.get(s, dflt)`. -/
def SENSITIVITY_ORDER (s : String) (dflt : Nat) : Nat :=
  if s = "LOW" then 1 else if s = "MED" then 2 else if s = "HIGH" then 3 else dflt

/-- The caller-supplied `policy_overrides` dict. -/
structure Overrides where
  min_group_size : Option Nat
  force_forbid_export : Bool
  force_mask : Bool
  force_redact : Bool
  max_rows : Option Nat
  force_region_match : Bool
  region : Option String
deriving DecidableEq

/-- An empty `policy_overrides` dict. -/
def emptyOverrides : Overrides := ⟨none, false, false, false, none, false, none⟩

/-- A decision's constraint dict; `none` means the key is absent. -/
structure Constraints where
  min_group_size : Option Nat
  must_mask : Option Bool
  must_log_access : Option Bool
  must_redact_narratives : Option Bool
  max_rows : Option Nat
  forbid_export : Option Bool
  region_filter : Option String
  must_aggregate_to_month : Option Bool
  must_aggregate_to_quarter : Option Bool
deriving DecidableEq

/-- The empty constraint dict `{}`. -/
def noConstraints : Constraints :=
  ⟨none, none, none, none, none, none, none, none, none⟩

/-- The `user` dict of a policy request. -/
structure PolicyUser where
  role : String
  region : Option String
  purpose : Option String
deriving DecidableEq

/-- The policy-relevant parts of the request passed to `_local_policy_eval`. -/
structure PolicyRequest where
  user : PolicyUser
  columns : List ColumnRef
  policy_overrides : Overrides
deriving DecidableEq

/-- A policy decision. -/
structure Decision where
  result : String
  reason : String
  constraints : Constraints
deriving DecidableEq

/-- `_apply_purpose_constraints` from `agent/policy_client.py`. -/
def apply_purpose_constraints (c : Constraints) (purpose : Option String) :
    Constraints :=
  let m1 := if purpose = some "reporting" then
      { c with must_aggregate_to_month := some true } else c
  let m2 := if purpose = some "regulatory" then
      { m1 with must_aggregate_to_quarter := some true } else m1
  if purpose = some "investigation" then
    { m2 with
      must_log_access := some true,
      forbid_export := some true,
      max_rows := some (min (m2.max_rows.getD 200) 200) }
  else m2

/-- `_apply_override_constraints` from `agent/policy_client.py`. -/
def apply_override_constraints (c : Constraints) (o : Overrides) : Constraints :=
  let m1 := match o.min_group_size with
    | some v => { c with min_group_size := some v }
    | none => c
  let m2 := if o.force_forbid_export then { m1 with forbid_export := some true } else m1
  let m3 := if o.force_mask then { m2 with must_mask := some true } else m2
  let m4 := if o.force_redact then { m3 with must_redact_narratives := some true } else m3
  let m5 := match o.max_rows with
    | some v => { m4 with max_rows := some v }
    | none => m4
  if o.force_region_match then
    match o.region with
    | some r => if r = "" then m5 else { m5 with region_filter := some r }
    | none => m5
  else m5

/-- Python truthiness of `region and region != "all"`. -/
def regionSpecific : Option String → Bool
  | some r => !(r = "") && !(r = "all")
  | none => false

/-- `_local_policy_eval` from `agent/policy_client.py`: the local fallback
policy evaluator. -/
def local_policy_eval (req : PolicyRequest) : Decision :=
  let role := req.user.role
  let columns := req.columns
  let overrides := req.policy_overrides
  match ROLE_CONFIGS role with
  | none =>
    { result := "DENY", reason := "Unknown role: " ++ role,
      constraints := noConstraints }
  | some role_config =>
    let max_level := SENSITIVITY_ORDER role_config.max_sensitivity 0
    let has_high := columns.any (fun c => c.sensitivity == "HIGH")
    let has_med := columns.any (fun c => c.sensitivity == "MED")
    let min_group_size := overrides.min_group_size.getD 10
    let region := req.user.region
    let purpose := req.user.purpose
    if role == "branch_manager" && region == some "all" then
      { result := "DENY",
        reason := "Branch manager must select a specific region",
        constraints := noConstraints }
    else if has_high then
      if role == "compliance_officer" || role == "auditor" then
        let max_rows : Nat := if role == "compliance_officer" then 100 else 50
        let base : Constraints :=
          { noConstraints with
            min_group_size := some min_group_size,
            must_mask := some true,
            must_log_access := some true,
            must_redact_narratives := some true,
            max_rows := some max_rows,
            forbid_export := some (role == "auditor") }
        let c1 := apply_purpose_constraints base purpose
        let c2 := apply_override_constraints c1 overrides
        let c3 := if regionSpecific region then
            { c2 with region_filter := region } else c2
        { result := "ALLOW_WITH_CONSTRAINTS",
          reason := "High sensitivity data allowed with masking for " ++ role,
          constraints := c3 }
      else
        { result := "DENY",
          reason := "High sensitivity data denied for this role. Consider requesting aggregated data instead.",
          constraints := noConstraints }
    else if has_med && decide (SENSITIVITY_ORDER "MED" 2 > max_level) then
      { result := "DENY",
        reason := "Role does not have access to medium sensitivity data",
        constraints := noConstraints }
    else
      let base : Constraints := { noConstraints with min_group_size := some min_group_size }
      let c1 := apply_purpose_constraints base purpose
      let c2 := apply_override_constraints c1 overrides
      let c3 := if regionSpecific region then
          { c2 with region_filter := region } else c2
      { result := "ALLOW", reason := "Query allowed for role", constraints := c3 }

/-- `check_export_allowed` from `agent/policy_client.py`. -/
def check_export_allowed (role : String) : Bool :=
  match ROLE_CONFIGS role with
  | some cfg => cfg.can_export
  | none => false


/-! ### Branch characterization of `_local_policy_eval`

One lemma per rule of the policy algorithm (unknown role, branch-manager with
region `all`, HIGH with privileged role, HIGH with other role, the MED denial,
and the final ALLOW), reducing every later claim to rule-level reasoning. -/

/-- The constraint set of a non-DENY decision: purpose merge, then override
merge, then the region filter written for a specific user region. -/
def finishConstraints (base : Constraints) (u : PolicyUser) (o : Overrides) :
    Constraints :=
  let c2 := apply_override_constraints (apply_purpose_constraints base u.purpose) o
  if regionSpecific u.region then { c2 with region_filter := u.region } else c2

/-- The base constraint set of the HIGH-sensitivity privileged branch. -/
def highBase (u : PolicyUser) (o : Overrides) : Constraints :=
  { noConstraints with
    min_group_size := some (o.min_group_size.getD 10),
    must_mask := some true,
    must_log_access := some true,
    must_redact_narratives := some true,
    max_rows := some (if u.role == "compliance_officer" then 100 else 50),
    forbid_export := some (u.role == "auditor") }

theorem bm_all_cond_false {u : PolicyUser}
    (hbm : ¬ (u.role = "branch_manager" ∧ u.region = some "all")) :
    (u.role == "branch_manager" && u.region == some "all") = false := by
  by_cases hr : u.role = "branch_manager"
  · have hreg : u.region ≠ some "all" := fun hreg => hbm ⟨hr, hreg⟩
    simp [hr, hreg]
  · simp [hr]

theorem local_policy_eval_unknown {u : PolicyUser} {cols : List ColumnRef}
    {o : Overrides} (h : ROLE_CONFIGS u.role = none) :
    local_policy_eval ⟨u, cols, o⟩ =
      ⟨"DENY", "Unknown role: " ++ u.role, noConstraints⟩ := by
  simp only [local_policy_eval, h]

theorem local_policy_eval_bm_all {u : PolicyUser} {cols : List ColumnRef}
    {o : Overrides} {rc : RoleConfig} (h : ROLE_CONFIGS u.role = some rc)
    (h2 : u.role = "branch_manager") (h3 : u.region = some "all") :
    local_policy_eval ⟨u, cols, o⟩ =
      ⟨"DENY", "Branch manager must select a specific region", noConstraints⟩ := by
  simp only [local_policy_eval, h]
  simp [h2, h3]

theorem local_policy_eval_high_priv {u : PolicyUser} {cols : List ColumnRef}
    {o : Overrides} {rc : RoleConfig} (h : ROLE_CONFIGS u.role = some rc)
    (hbm : ¬ (u.role = "branch_manager" ∧ u.region = some "all"))
    (hh : cols.any (fun c => c.sensitivity == "HIGH") = true)
    (hca : u.role = "compliance_officer" ∨ u.role = "auditor") :
    local_policy_eval ⟨u, cols, o⟩ =
      { result := "ALLOW_WITH_CONSTRAINTS",
        reason := "High sensitivity data allowed with masking for " ++ u.role,
        constraints := finishConstraints (highBase u o) u o } := by
  have hcond : (u.role == "compliance_officer" || u.role == "auditor") = true := by
    rcases hca with hc | hc <;> simp [hc]
  simp only [local_policy_eval, h]
  simp only [bm_all_cond_false hbm, Bool.false_eq_true, if_false, hh, if_true,
    hcond, finishConstraints, highBase]

theorem local_policy_eval_high_denied {u : PolicyUser} {cols : List ColumnRef}
    {o : Overrides} {rc : RoleConfig} (h : ROLE_CONFIGS u.role = some rc)
    (hbm : ¬ (u.role = "branch_manager" ∧ u.region = some "all"))
    (hh : cols.any (fun c => c.sensitivity == "HIGH") = true)
    (hca : u.role ≠ "compliance_officer") (hca2 : u.role ≠ "auditor") :
    local_policy_eval ⟨u, cols, o⟩ =
      ⟨"DENY",
       "High sensitivity data denied for this role. Consider requesting aggregated data instead.",
       noConstraints⟩ := by
  simp only [local_policy_eval, h]
  simp only [bm_all_cond_false hbm, Bool.false_eq_true, if_false, hh, if_true]
  simp [hca, hca2]

theorem local_policy_eval_med_denied {u : PolicyUser} {cols : List ColumnRef}
    {o : Overrides} {rc : RoleConfig} (h : ROLE_CONFIGS u.role = some rc)
    (hbm : ¬ (u.role = "branch_manager" ∧ u.region = some "all"))
    (hh : cols.any (fun c => c.sensitivity == "HIGH") = false)
    (hm : (cols.any (fun c => c.sensitivity == "MED") &&
        decide (SENSITIVITY_ORDER "MED" 2 >
          SENSITIVITY_ORDER rc.max_sensitivity 0)) = true) :
    local_policy_eval ⟨u, cols, o⟩ =
      ⟨"DENY", "Role does not have access to medium sensitivity data",
       noConstraints⟩ := by
  simp only [local_policy_eval, h]
  simp only [bm_all_cond_false hbm, Bool.false_eq_true, if_false, hh, hm, if_true]

theorem local_policy_eval_allow {u : PolicyUser} {cols : List ColumnRef}
    {o : Overrides} {rc : RoleConfig} (h : ROLE_CONFIGS u.role = some rc)
    (hbm : ¬ (u.role = "branch_manager" ∧ u.region = some "all"))
    (hh : cols.any (fun c => c.sensitivity == "HIGH") = false)
    (hm : (cols.any (fun c => c.sensitivity == "MED") &&
        decide (SENSITIVITY_ORDER "MED" 2 >
          SENSITIVITY_ORDER rc.max_sensitivity 0)) = false) :
    local_policy_eval ⟨u, cols, o⟩ =
      { result := "ALLOW", reason := "Query allowed for role",
        constraints := finishConstraints
          { noConstraints with min_group_size := some (o.min_group_size.getD 10) }
          u o } := by
  simp only [local_policy_eval, h]
  simp only [bm_all_cond_false hbm, Bool.false_eq_true, if_false, hh, hm,
    finishConstraints]

theorem local_policy_eval_result_const (u : PolicyUser) (cols : List ColumnRef)
    (o : Overrides) :
    (local_policy_eval ⟨u, cols, o⟩).result =
      (local_policy_eval ⟨u, cols, emptyOverrides⟩).result := by
  rcases hrc : ROLE_CONFIGS u.role with _ | rc
  · rw [local_policy_eval_unknown hrc, local_policy_eval_unknown hrc]
  · by_cases hbm : u.role = "branch_manager" ∧ u.region = some "all"
    · rw [local_policy_eval_bm_all hrc hbm.1 hbm.2,
        local_policy_eval_bm_all hrc hbm.1 hbm.2]
    · by_cases hh : cols.any (fun c => c.sensitivity == "HIGH") = true
      · by_cases hca : u.role = "compliance_officer" ∨ u.role = "auditor"
        · rw [local_policy_eval_high_priv hrc hbm hh hca,
            local_policy_eval_high_priv hrc hbm hh hca]
        · push_neg at hca
          rw [local_policy_eval_high_denied hrc hbm hh hca.1 hca.2,
            local_policy_eval_high_denied hrc hbm hh hca.1 hca.2]
      · have hh' : cols.any (fun c => c.sensitivity == "HIGH") = false := by
          simpa using hh
        by_cases hm : (cols.any (fun c => c.sensitivity == "MED") &&
            decide (SENSITIVITY_ORDER "MED" 2 >
              SENSITIVITY_ORDER rc.max_sensitivity 0)) = true
        · rw [local_policy_eval_med_denied hrc hbm hh' hm,
            local_policy_eval_med_denied hrc hbm hh' hm]
        · have hm' : (cols.any (fun c => c.sensitivity == "MED") &&
              decide (SENSITIVITY_ORDER "MED" 2 >
                SENSITIVITY_ORDER rc.max_sensitivity 0)) = false := by
            simpa using hm
          rw [local_policy_eval_allow hrc hbm hh' hm',
            local_policy_eval_allow hrc hbm hh' hm']

/-- C5: caller-supplied overrides never change which decision rule fires: the
decision `result` with any overrides equals the result with no overrides — in
particular a DENY reached by rules 1–4 is never relaxed by an override, and
overrides only edit the constraint set of ALLOW / ALLOW_WITH_CONSTRAINTS
outcomes. -/
theorem claim_C5_overrides_never_relax_deny :
    (∀ (u : PolicyUser) (cols : List ColumnRef) (o : Overrides),
      (local_policy_eval ⟨u, cols, o⟩).result =
        (local_policy_eval ⟨u, cols, emptyOverrides⟩).result) ∧
    (∀ (u : PolicyUser) (cols : List ColumnRef) (o : Overrides),
      (local_policy_eval ⟨u, cols, emptyOverrides⟩).result = "DENY" →
      (local_policy_eval ⟨u, cols, o⟩).result = "DENY") := by
  refine ⟨local_policy_eval_result_const, ?_⟩
  intro u cols o h
  rw [local_policy_eval_result_const, h]

/-- Witness for C5: a high-sensitivity DENY for `data_analyst` stays DENY
under an override that tries to relax the group size and row cap. -/
theorem claim_C5_overrides_never_relax_deny_witness :
    (local_policy_eval ⟨⟨"data_analyst", none, none⟩,
        [⟨"consumer_narrative", "HIGH"⟩], emptyOverrides⟩).result = "DENY" ∧
    (local_policy_eval ⟨⟨"data_analyst", none, none⟩,
        [⟨"consumer_narrative", "HIGH"⟩],
        ⟨some 1, false, false, false, some 100000, false, none⟩⟩).result = "DENY" :=
  have h : (local_policy_eval ⟨⟨"data_analyst", none, none⟩,
      [⟨"consumer_narrative", "HIGH"⟩], emptyOverrides⟩).result = "DENY" := by decide
  ⟨h, claim_C5_overrides_never_relax_deny.2 ⟨"data_analyst", none, none⟩
      [⟨"consumer_narrative", "HIGH"⟩]
      ⟨some 1, false, false, false, some 100000, false, none⟩ h⟩

/-- Field-level characterization of the purpose merge. -/
theorem apply_purpose_constraints_eq (c : Constraints) (p : Option String) :
    apply_purpose_constraints c p =
      { min_group_size := c.min_group_size,
        must_mask := c.must_mask,
        must_log_access := if p = some "investigation" then some true
          else c.must_log_access,
        must_redact_narratives := c.must_redact_narratives,
        max_rows := if p = some "investigation" then
          some (min (c.max_rows.getD 200) 200) else c.max_rows,
        forbid_export := if p = some "investigation" then some true
          else c.forbid_export,
        region_filter := c.region_filter,
        must_aggregate_to_month := if p = some "reporting" then some true
          else c.must_aggregate_to_month,
        must_aggregate_to_quarter := if p = some "regulatory" then some true
          else c.must_aggregate_to_quarter } := by
  by_cases h1 : p = some "reporting" <;>
    by_cases h2 : p = some "regulatory" <;>
      by_cases h3 : p = some "investigation" <;>
        simp_all [apply_purpose_constraints]

/-- Field-level characterization of the override merge. -/
theorem apply_override_constraints_eq (c : Constraints) (o : Overrides) :
    apply_override_constraints c o =
      { min_group_size := o.min_group_size.or c.min_group_size,
        must_mask := if o.force_mask then some true else c.must_mask,
        must_log_access := c.must_log_access,
        must_redact_narratives := if o.force_redact then some true
          else c.must_redact_narratives,
        max_rows := o.max_rows.or c.max_rows,
        forbid_export := if o.force_forbid_export then some true
          else c.forbid_export,
        region_filter := if o.force_region_match then
          (match o.region with
           | some r => if r = "" then c.region_filter else some r
           | none => c.region_filter)
          else c.region_filter,
        must_aggregate_to_month := c.must_aggregate_to_month,
        must_aggregate_to_quarter := c.must_aggregate_to_quarter } := by
  cases hmin : o.min_group_size <;>
    cases hmax : o.max_rows <;>
      by_cases h1 : o.force_forbid_export <;>
        by_cases h2 : o.force_mask <;>
          by_cases h3 : o.force_redact <;>
            by_cases h4 : o.force_region_match <;>
              cases hr : o.region <;>
                simp_all [apply_override_constraints, Option.or] <;>
                  (try (split <;> simp_all))

theorem finishConstraints_minimal_override (base : Constraints) (u : PolicyUser)
    (o : Overrides) (hp : u.purpose ≠ some "investigation")
    (ho1 : o.force_forbid_export = false) (ho2 : o.force_mask = false)
    (ho3 : o.force_redact = false) (ho4 : o.max_rows = none)
    (ho5 : o.force_region_match = false) :
    (finishConstraints base u o).min_group_size =
        o.min_group_size.or base.min_group_size ∧
    (finishConstraints base u o).must_mask = base.must_mask ∧
    (finishConstraints base u o).must_log_access = base.must_log_access ∧
    (finishConstraints base u o).must_redact_narratives =
        base.must_redact_narratives ∧
    (finishConstraints base u o).max_rows = base.max_rows ∧
    (finishConstraints base u o).forbid_export = base.forbid_export := by
  unfold finishConstraints
  rw [apply_purpose_constraints_eq, apply_override_constraints_eq]
  by_cases hreg : regionSpecific u.region <;>
    simp [hreg, hp, ho1, ho2, ho3, ho4, ho5]

/-- C2 (amended scope: base rule 3, i.e. default purpose merge — purpose not
`investigation` — and overrides that at most set `min_group_size`): for every
known role and any column set with a HIGH column, not already denied by the
unknown-role or branch-manager-region rules: compliance_officer and auditor
get ALLOW_WITH_CONSTRAINTS with the documented constraint set
(`min_group_size` default 10 and overridable, `must_mask`, `must_log_access`,
`must_redact_narratives`, `max_rows` 100/50, `forbid_export` only for
auditor); every other role gets DENY with a reason mentioning high
sensitivity and no constraints. -/
theorem claim_C2_high_sensitivity_rule
    (role : String) (region purpose : Option String)
    (cols : List ColumnRef) (o : Overrides)
    (hrole : ROLE_CONFIGS role ≠ none)
    (hbm : ¬ (role = "branch_manager" ∧ region = some "all"))
    (hhigh : cols.any (fun c => c.sensitivity == "HIGH") = true)
    (hp : purpose ≠ some "investigation")
    (ho1 : o.force_forbid_export = false) (ho2 : o.force_mask = false)
    (ho3 : o.force_redact = false) (ho4 : o.max_rows = none)
    (ho5 : o.force_region_match = false) :
    ((role = "compliance_officer" ∨ role = "auditor") →
      (local_policy_eval ⟨⟨role, region, purpose⟩, cols, o⟩).result =
          "ALLOW_WITH_CONSTRAINTS" ∧
      (local_policy_eval ⟨⟨role, region, purpose⟩, cols, o⟩).constraints.min_group_size =
          some (o.min_group_size.getD 10) ∧
      (local_policy_eval ⟨⟨role, region, purpose⟩, cols, o⟩).constraints.must_mask =
          some true ∧
      (local_policy_eval ⟨⟨role, region, purpose⟩, cols, o⟩).constraints.must_log_access =
          some true ∧
      (local_policy_eval ⟨⟨role, region, purpose⟩, cols, o⟩).constraints.must_redact_narratives =
          some true ∧
      (local_policy_eval ⟨⟨role, region, purpose⟩, cols, o⟩).constraints.max_rows =
          some (if role = "compliance_officer" then 100 else 50) ∧
      (local_policy_eval ⟨⟨role, region, purpose⟩, cols, o⟩).constraints.forbid_export =
          some (role == "auditor")) ∧
    (role ≠ "compliance_officer" → role ≠ "auditor" →
      (local_policy_eval ⟨⟨role, region, purpose⟩, cols, o⟩).result = "DENY" ∧
      containsL "high sensitivity".data
        (lowerL (local_policy_eval ⟨⟨role, region, purpose⟩, cols, o⟩).reason.data) =
          true ∧
      (local_policy_eval ⟨⟨role, region, purpose⟩, cols, o⟩).constraints =
          noConstraints) := by
  obtain ⟨rc, hrc⟩ : ∃ rc, ROLE_CONFIGS role = some rc := by
    cases h : ROLE_CONFIGS role with
    | none => exact absurd h hrole
    | some rc => exact ⟨rc, rfl⟩
  constructor
  · intro hca
    rw [local_policy_eval_high_priv hrc hbm hhigh hca]
    have hf := finishConstraints_minimal_override
      (highBase ⟨role, region, purpose⟩ o) ⟨role, region, purpose⟩ o hp
      ho1 ho2 ho3 ho4 ho5
    obtain ⟨f1, f2, f3, f4, f5, f6⟩ := hf
    refine ⟨rfl, ?_, ?_, ?_, ?_, ?_, ?_⟩
    · rw [f1]
      cases hmin : o.min_group_size <;> simp [highBase, hmin, Option.or]
    · rw [f2]; simp [highBase]
    · rw [f3]; simp [highBase]
    · rw [f4]; simp [highBase]
    · rw [f5]
      rcases hca with hc | hc <;> simp [highBase, hc]
    · rw [f6]; simp [highBase]
  · intro hc1 hc2
    rw [local_policy_eval_high_denied hrc hbm hhigh hc1 hc2]
    exact ⟨rfl, by decide, rfl⟩

/-- Witness for C2 at both privileged roles and a denied role. -/
theorem claim_C2_high_sensitivity_rule_witness :
    ((local_policy_eval ⟨⟨"auditor", some "north", some "analysis"⟩,
        [⟨"consumer_narrative", "HIGH"⟩], emptyOverrides⟩).result =
      "ALLOW_WITH_CONSTRAINTS" ∧
     (local_policy_eval ⟨⟨"auditor", some "north", some "analysis"⟩,
        [⟨"consumer_narrative", "HIGH"⟩], emptyOverrides⟩).constraints.forbid_export =
      some true) ∧
    (local_policy_eval ⟨⟨"data_analyst", none, none⟩,
        [⟨"consumer_narrative", "HIGH"⟩], emptyOverrides⟩).result = "DENY" := by
  have h1 := (claim_C2_high_sensitivity_rule "auditor" (some "north")
    (some "analysis") [⟨"consumer_narrative", "HIGH"⟩] emptyOverrides
    (by decide) (by decide) (by decide) (by decide)
    rfl rfl rfl rfl rfl).1 (Or.inr rfl)
  have h2 := (claim_C2_high_sensitivity_rule "data_analyst" none none
    [⟨"consumer_narrative", "HIGH"⟩] emptyOverrides
    (by decide) (by decide) (by decide) (by decide)
    rfl rfl rfl rfl rfl).2 (by decide) (by decide)
  exact ⟨⟨h1.1, h1.2.2.2.2.2.2⟩, h2.1⟩

/-- Counterexample to C4 as stated: for `risk_officer` with specific user
region `north`, an override forcing `region_filter` to `south` does not end
up in the decision — the user's region, written after the override merge,
overwrites it. -/
theorem claim_C4_counterexample :
    (local_policy_eval ⟨⟨"risk_officer", some "north", none⟩, [],
        ⟨none, false, false, false, none, true, some "south"⟩⟩).result =
      "ALLOW" ∧
    (local_policy_eval ⟨⟨"risk_officer", some "north", none⟩, [],
        ⟨none, false, false, false, none, true, some "south"⟩⟩).constraints.region_filter ≠
      some "south" ∧
    (local_policy_eval ⟨⟨"risk_officer", some "north", none⟩, [],
        ⟨none, false, false, false, none, true, some "south"⟩⟩).constraints.region_filter =
      some "north" := by
  refine ⟨?_, ?_, ?_⟩ <;> decide

/-- C4 as amended: on any non-DENY decision, caller overrides have highest
precedence for `min_group_size`, `forbid_export`, `must_mask`,
`must_redact_narratives` and `max_rows`; a forced `region_filter` override
lands in the decision only when the user's own region is not specific (the
specific user region is written after the override merge and wins). -/
theorem claim_C4_override_precedence (u : PolicyUser) (cols : List ColumnRef)
    (o : Overrides)
    (hden : (local_policy_eval ⟨u, cols, o⟩).result ≠ "DENY") :
    (∀ v, o.min_group_size = some v →
      (local_policy_eval ⟨u, cols, o⟩).constraints.min_group_size = some v) ∧
    (o.force_forbid_export = true →
      (local_policy_eval ⟨u, cols, o⟩).constraints.forbid_export = some true) ∧
    (o.force_mask = true →
      (local_policy_eval ⟨u, cols, o⟩).constraints.must_mask = some true) ∧
    (o.force_redact = true →
      (local_policy_eval ⟨u, cols, o⟩).constraints.must_redact_narratives =
        some true) ∧
    (∀ v, o.max_rows = some v →
      (local_policy_eval ⟨u, cols, o⟩).constraints.max_rows = some v) ∧
    (∀ r, o.force_region_match = true → o.region = some r → r ≠ "" →
      regionSpecific u.region = false →
      (local_policy_eval ⟨u, cols, o⟩).constraints.region_filter = some r) := by
  have key : ∀ base : Constraints,
      (local_policy_eval ⟨u, cols, o⟩).constraints = finishConstraints base u o →
      (∀ v, o.min_group_size = some v →
        (local_policy_eval ⟨u, cols, o⟩).constraints.min_group_size = some v) ∧
      (o.force_forbid_export = true →
        (local_policy_eval ⟨u, cols, o⟩).constraints.forbid_export = some true) ∧
      (o.force_mask = true →
        (local_policy_eval ⟨u, cols, o⟩).constraints.must_mask = some true) ∧
      (o.force_redact = true →
        (local_policy_eval ⟨u, cols, o⟩).constraints.must_redact_narratives =
          some true) ∧
      (∀ v, o.max_rows = some v →
        (local_policy_eval ⟨u, cols, o⟩).constraints.max_rows = some v) ∧
      (∀ r, o.force_region_match = true → o.region = some r → r ≠ "" →
        regionSpecific u.region = false →
        (local_policy_eval ⟨u, cols, o⟩).constraints.region_filter = some r) := by
    intro base hc
    rw [hc]
    unfold finishConstraints
    rw [apply_purpose_constraints_eq, apply_override_constraints_eq]
    refine ⟨?_, ?_, ?_, ?_, ?_, ?_⟩
    · intro v hv
      by_cases hreg : regionSpecific u.region <;> simp [hreg, hv, Option.or]
    · intro hv
      by_cases hreg : regionSpecific u.region <;> simp [hreg, hv]
    · intro hv
      by_cases hreg : regionSpecific u.region <;> simp [hreg, hv]
    · intro hv
      by_cases hreg : regionSpecific u.region <;> simp [hreg, hv]
    · intro v hv
      by_cases hreg : regionSpecific u.region <;> simp [hreg, hv, Option.or]
    · intro r h1 h2 h3 hreg
      simp [hreg, h1, h2, h3]
  rcases hrc : ROLE_CONFIGS u.role with _ | rc
  · rw [local_policy_eval_unknown hrc] at hden
    exact absurd rfl hden
  · by_cases hbm : u.role = "branch_manager" ∧ u.region = some "all"
    · rw [local_policy_eval_bm_all hrc hbm.1 hbm.2] at hden
      exact absurd rfl hden
    · by_cases hh : cols.any (fun c => c.sensitivity == "HIGH") = true
      · by_cases hca : u.role = "compliance_officer" ∨ u.role = "auditor"
        · exact key _ (by rw [local_policy_eval_high_priv hrc hbm hh hca])
        · push_neg at hca
          rw [local_policy_eval_high_denied hrc hbm hh hca.1 hca.2] at hden
          exact absurd rfl hden
      · have hh' : cols.any (fun c => c.sensitivity == "HIGH") = false := by
          simpa using hh
        by_cases hm : (cols.any (fun c => c.sensitivity == "MED") &&
            decide (SENSITIVITY_ORDER "MED" 2 >
              SENSITIVITY_ORDER rc.max_sensitivity 0)) = true
        · rw [local_policy_eval_med_denied hrc hbm hh' hm] at hden
          exact absurd rfl hden
        · have hm' : (cols.any (fun c => c.sensitivity == "MED") &&
              decide (SENSITIVITY_ORDER "MED" 2 >
                SENSITIVITY_ORDER rc.max_sensitivity 0)) = false := by
            simpa using hm
          exact key _ (by rw [local_policy_eval_allow hrc hbm hh' hm'])

/-- Witness for the amended C4: with no specific user region, every override
(including the forced region filter) lands in the final constraint set. -/
theorem claim_C4_override_precedence_witness :
    (local_policy_eval ⟨⟨"risk_officer", none, none⟩, [],
        ⟨some 5, true, true, true, some 42, true, some "south"⟩⟩).constraints.min_group_size =
      some 5 ∧
    (local_policy_eval ⟨⟨"risk_officer", none, none⟩, [],
        ⟨some 5, true, true, true, some 42, true, some "south"⟩⟩).constraints.max_rows =
      some 42 ∧
    (local_policy_eval ⟨⟨"risk_officer", none, none⟩, [],
        ⟨some 5, true, true, true, some 42, true, some "south"⟩⟩).constraints.region_filter =
      some "south" := by
  have h := claim_C4_override_precedence ⟨"risk_officer", none, none⟩ []
    ⟨some 5, true, true, true, some 42, true, some "south"⟩ (by decide)
  exact ⟨h.1 5 rfl, h.2.2.2.2.1 42 rfl,
    h.2.2.2.2.2 "south" rfl rfl (by decide) (by decide)⟩

/-! ## SQL safety validator (`agent/sql_validator.py`)

`validate_sql`: keyword deny-list matched as whole words case-insensitively
(regex `\b<KW>\b` over `sql.upper().strip()`), explicit file-read rejection,
and a `FROM`/`JOIN` table scan (regex `\bFROM\s+(\w+)` / `\bJOIN\s+(\w+)`,
case-insensitive, non-overlapping) checked against the allow-list / `dp_`
prefix.  Scanners are fuel-structural so the kernel can run them. -/

/-- Case-insensitive literal match of `kw` (given uppercase) at the head of
`l`, returning the remainder. -/
def dropKwCI : List Char → List Char → Option (List Char)
  | [], l => some l
  | _ :: _, [] => none
  | k :: ks, c :: cs => if upChar c = k then dropKwCI ks cs else none

/-- `kw` matches at the head of `l` and ends at a `\b` word boundary. -/
def wordEndOk : List Char → List Char → Bool
  | [], [] => true
  | [], c :: _ => !isWordChar c
  | _ :: _, [] => false
  | k :: ks, c :: cs => k = c && wordEndOk ks cs

/-- `re.search(r'\b<kw>\b', l)` for a word-character keyword `kw`: scan with
a previous-character-was-word-character flag for the left boundary. -/
def hasWordAux (kw : List Char) : Bool → List Char → Bool
  | _, [] => false
  | prevW, c :: cs =>
    (!prevW && wordEndOk kw (c :: cs)) || hasWordAux kw (isWordChar c) cs

/-- Whole-word occurrence of keyword `kw` in `l`. -/
def hasWord (kw l : List Char) : Bool := hasWordAux kw false l

/-- Try to match `\b<kw>\s+(\w+)` at the current position (the caller checks
the left boundary): keyword, one-plus whitespace, captured word; returns the
capture and the remainder after it. -/
def matchTableRef (kw l : List Char) : Option (List Char × List Char) :=
  match dropKwCI kw l with
  | none => none
  | some r1 =>
    let ws1 := r1.takeWhile isWsChar
    if ws1.isEmpty then none
    else
      let r2 := r1.dropWhile isWsChar
      let w := r2.takeWhile isWordChar
      if w.isEmpty then none else some (w, r2.dropWhile isWordChar)

/-- `re.findall(r'\b<kw>\s+(\w+)', sql, re.IGNORECASE)`: left-to-right,
non-overlapping, resuming after each match.  Fuel bounds the scan length. -/
def scanCapsF (kw : List Char) : Nat → Bool → List Char → List (List Char)
  | 0, _, _ => []
  | _ + 1, _, [] => []
  | fuel + 1, prevW, c :: cs =>
    match (if prevW then none else matchTableRef kw (c :: cs)) with
    | some (w, rest) => w :: scanCapsF kw fuel true rest
    | none => scanCapsF kw fuel (isWordChar c) cs

/-- The allow-listed tables `ALLOWED_TABLES`. -/
def ALLOWED_TABLES : List String :=
  ["dp_complaints", "dp_call_reports", "dp_macro_rates"]

/-- The `FORBIDDEN_KEYWORDS` deny-list, in source order. -/
def FORBIDDEN_KEYWORDS : List String :=
  ["PRAGMA", "ATTACH", "DETACH", "COPY", "EXPORT", "IMPORT",
   "CREATE", "DROP", "ALTER", "INSERT", "UPDATE", "DELETE",
   "TRUNCATE", "GRANT", "REVOKE", "LOAD", "INSTALL"]

/-- `extract_tables` from `agent/sql_validator.py`: the `FROM`-clause then
`JOIN`-clause captures (the Python `set` only collapses duplicates, which no
later consumer distinguishes). -/
def extract_tables (sql : String) : List String :=
  (scanCapsF "FROM".data sql.data.length false sql.data ++
   scanCapsF "JOIN".data sql.data.length false sql.data).map (fun w => ⟨w⟩)

/-- A table reference fails the allow-list and the `dp_` prefix convention. -/
def badTable (t : String) : Bool :=
  !(ALLOWED_TABLES.contains ⟨lowerL t.data⟩) && !(isPrefixL "dp_".data (lowerL t.data))

/-- `validate_sql` from `agent/sql_validator.py`. -/
def validate_sql (sql : String) : Bool × String :=
  match FORBIDDEN_KEYWORDS.find?
      (fun kw => hasWord kw.data (stripWs (upperL sql.data))) with
  | some kw => (false, "Forbidden SQL keyword: " ++ kw)
  | none =>
    if containsL "READ_CSV".data (stripWs (upperL sql.data)) ||
        containsL "READ_PARQUET".data (stripWs (upperL sql.data)) ||
        containsL "READ_JSON".data (stripWs (upperL sql.data)) then
      (false, "Direct file reads are not allowed")
    else
      match (extract_tables sql).find? badTable with
      | some t =>
        (false, "Table '" ++ t ++
          "' is not an allowed data product. Only dp_* tables are queryable.")
      | none => (true, "")


/-- C8: `validate_sql` rejects any statement with a deny-listed keyword as a
case-insensitive whole word (naming an offending keyword in the reason),
rejects direct file-reading functions, rejects any `FROM`/`JOIN`-referenced
table that is neither allow-listed nor `dp_`-prefixed (and, when no
earlier-precedence keyword or file-read rejection fires, names an offending
table in the reason), and accepts a clean statement with no table references
at all. -/
theorem claim_C8_validator_rejections :
    (∀ (sql : String) (kw : String), kw ∈ FORBIDDEN_KEYWORDS →
      hasWord kw.data (stripWs (upperL sql.data)) = true →
      (validate_sql sql).1 = false ∧
      ∃ kw2, kw2 ∈ FORBIDDEN_KEYWORDS ∧
        (validate_sql sql).2 = "Forbidden SQL keyword: " ++ kw2 ∧
        hasWord kw2.data (stripWs (upperL sql.data)) = true) ∧
    (∀ sql : String,
      (containsL "READ_CSV".data (stripWs (upperL sql.data)) = true ∨
       containsL "READ_PARQUET".data (stripWs (upperL sql.data)) = true ∨
       containsL "READ_JSON".data (stripWs (upperL sql.data)) = true) →
      (validate_sql sql).1 = false) ∧
    (∀ (sql t : String), t ∈ extract_tables sql → badTable t = true →
      (validate_sql sql).1 = false ∧
      ((∀ kw ∈ FORBIDDEN_KEYWORDS,
          hasWord kw.data (stripWs (upperL sql.data)) = false) →
        containsL "READ_CSV".data (stripWs (upperL sql.data)) = false →
        containsL "READ_PARQUET".data (stripWs (upperL sql.data)) = false →
        containsL "READ_JSON".data (stripWs (upperL sql.data)) = false →
        ∃ t2, t2 ∈ extract_tables sql ∧ badTable t2 = true ∧
          (validate_sql sql).2 = "Table '" ++ t2 ++
            "' is not an allowed data product. Only dp_* tables are queryable.")) ∧
    (∀ sql : String,
      (∀ kw ∈ FORBIDDEN_KEYWORDS,
        hasWord kw.data (stripWs (upperL sql.data)) = false) →
      containsL "READ_CSV".data (stripWs (upperL sql.data)) = false →
      containsL "READ_PARQUET".data (stripWs (upperL sql.data)) = false →
      containsL "READ_JSON".data (stripWs (upperL sql.data)) = false →
      extract_tables sql = [] →
      validate_sql sql = (true, "")) := by
  refine ⟨?_, ?_, ?_, ?_⟩
  · intro sql kw hmem hkw
    have hsome : (FORBIDDEN_KEYWORDS.find?
        (fun kw => hasWord kw.data (stripWs (upperL sql.data)))).isSome := by
      rw [List.find?_isSome]
      exact ⟨kw, hmem, hkw⟩
    obtain ⟨kw2, hfind⟩ := Option.isSome_iff_exists.mp hsome
    unfold validate_sql
    rw [hfind]
    exact ⟨rfl, kw2, List.mem_of_find?_eq_some hfind, rfl,
      by simpa using List.find?_some hfind⟩
  · intro sql hor
    unfold validate_sql
    cases hfind : FORBIDDEN_KEYWORDS.find?
        (fun kw => hasWord kw.data (stripWs (upperL sql.data))) with
    | some kw => rfl
    | none =>
      have hcond : (containsL "READ_CSV".data (stripWs (upperL sql.data)) ||
          containsL "READ_PARQUET".data (stripWs (upperL sql.data)) ||
          containsL "READ_JSON".data (stripWs (upperL sql.data))) = true := by
        rcases hor with h | h | h <;> simp [h]
      simp only [hcond, if_true]
  · intro sql t hmem hbad
    cases hfind : FORBIDDEN_KEYWORDS.find?
        (fun kw => hasWord kw.data (stripWs (upperL sql.data))) with
    | some kw =>
      constructor
      · unfold validate_sql
        rw [hfind]
      · intro hnokw h1 h2 h3
        have hk := hnokw kw (List.mem_of_find?_eq_some hfind)
        have hk' : hasWord kw.data (stripWs (upperL sql.data)) = true := by
          simpa using List.find?_some hfind
        rw [hk] at hk'
        exact Bool.noConfusion hk'
    | none =>
      have hsome : ((extract_tables sql).find? badTable).isSome := by
        rw [List.find?_isSome]
        exact ⟨t, hmem, hbad⟩
      obtain ⟨t2, hfind2⟩ := Option.isSome_iff_exists.mp hsome
      by_cases hfile : (containsL "READ_CSV".data (stripWs (upperL sql.data)) ||
          containsL "READ_PARQUET".data (stripWs (upperL sql.data)) ||
          containsL "READ_JSON".data (stripWs (upperL sql.data))) = true
      · constructor
        · unfold validate_sql
          rw [hfind]
          simp only [hfile, if_true]
        · intro hnokw h1 h2 h3
          rw [h1, h2, h3] at hfile
          simp at hfile
      · simp only [Bool.not_eq_true] at hfile
        constructor
        · unfold validate_sql
          rw [hfind, hfind2]
          simp only [hfile, Bool.false_eq_true, if_false]
        · intro hnokw h1 h2 h3
          refine ⟨t2, List.mem_of_find?_eq_some hfind2,
            by simpa using List.find?_some hfind2, ?_⟩
          unfold validate_sql
          rw [hfind, hfind2]
          simp only [hfile, Bool.false_eq_true, if_false]
  · intro sql hkw h1 h2 h3 htab
    have hnone : FORBIDDEN_KEYWORDS.find?
        (fun kw => hasWord kw.data (stripWs (upperL sql.data))) = none :=
      List.find?_eq_none.mpr (fun k hkmem => by simp [hkw k hkmem])
    unfold validate_sql
    rw [hnone, htab]
    simp [h1, h2, h3]

/-- Witness for C8 at concrete statements of all four kinds, including the
reason naming the offending table. -/
theorem claim_C8_validator_rejections_witness :
    (validate_sql "DROP TABLE dp_complaints").1 = false ∧
    (validate_sql "SELECT * FROM read_csv('x.csv')").1 = false ∧
    ((validate_sql "SELECT * FROM secret_table").1 = false ∧
      ∃ t2, t2 ∈ extract_tables "SELECT * FROM secret_table" ∧
        badTable t2 = true ∧
        (validate_sql "SELECT * FROM secret_table").2 = "Table '" ++ t2 ++
          "' is not an allowed data product. Only dp_* tables are queryable.") ∧
    validate_sql "SELECT 1" = (true, "") := by
  refine ⟨?_, ?_, ⟨?_, ?_⟩, ?_⟩
  · exact (claim_C8_validator_rejections.1 "DROP TABLE dp_complaints" "DROP"
      (by decide) (by decide)).1
  · exact claim_C8_validator_rejections.2.1 "SELECT * FROM read_csv('x.csv')"
      (Or.inl (by decide))
  · exact (claim_C8_validator_rejections.2.2.1 "SELECT * FROM secret_table"
      "secret_table" (by decide) (by decide)).1
  · exact (claim_C8_validator_rejections.2.2.1 "SELECT * FROM secret_table"
      "secret_table" (by decide) (by decide)).2
      (by decide) (by decide) (by decide) (by decide)
  · exact claim_C8_validator_rejections.2.2.2 "SELECT 1"
      (by decide) (by decide) (by decide) (by decide) (by decide)

/-! ## Anonymity clause (`agent/sql_validator.py`, `apply_min_group_size`)

The three `re.sub` substitutions are embedded as left-to-right scanners with
the regexes' non-overlapping resume-after-match semantics: `HAVING\s+` (the
match is kept and the anonymity conjunct appended after it), `\s+ORDER\s+BY`
and `\s+LIMIT` (the `HAVING` clause is inserted before the match). -/

/-- The conjunct appended after an existing `HAVING `: the `\1COUNT(*) >= n
AND ` replacement tail. -/
def countAndText (n : Nat) : List Char := ("COUNT(*) >= " ++ toString n ++ " AND ").data

/-- The clause inserted before `ORDER BY` / `LIMIT` or appended at the end. -/
def havingText (n : Nat) : List Char := (" HAVING COUNT(*) >= " ++ toString n).data

/-- Match `HAVING\s+` (case-insensitively) at the head; returns the length
matched. -/
def matchHavingWs (l : List Char) : Option Nat :=
  match dropKwCI "HAVING".data l with
  | none => none
  | some r =>
    let w := r.takeWhile isWsChar
    if w.isEmpty then none else some (6 + w.length)

/-- Match `\s+ORDER\s+BY` (case-insensitively) at the head. -/
def matchWsOrderBy (l : List Char) : Option Nat :=
  let w1 := l.takeWhile isWsChar
  if w1.isEmpty then none
  else
    match dropKwCI "ORDER".data (l.dropWhile isWsChar) with
    | none => none
    | some r2 =>
      let w2 := r2.takeWhile isWsChar
      if w2.isEmpty then none
      else
        match dropKwCI "BY".data (r2.dropWhile isWsChar) with
        | none => none
        | some _ => some (w1.length + 5 + w2.length + 2)

/-- Match `\s+LIMIT` (case-insensitively) at the head. -/
def matchWsLimit (l : List Char) : Option Nat :=
  let w1 := l.takeWhile isWsChar
  if w1.isEmpty then none
  else
    match dropKwCI "LIMIT".data (l.dropWhile isWsChar) with
    | none => none
    | some _ => some (w1.length + 5)

theorem matchHavingWs_pos {l : List Char} {k : Nat}
    (h : matchHavingWs l = some k) : 0 < k := by
  unfold matchHavingWs at h
  cases hd : dropKwCI "HAVING".data l with
  | none => rw [hd] at h; exact absurd h (by simp)
  | some r =>
    rw [hd] at h
    dsimp only at h
    split at h
    · exact absurd h (by simp)
    · cases h; omega

theorem matchWsOrderBy_pos {l : List Char} {k : Nat}
    (h : matchWsOrderBy l = some k) : 0 < k := by
  simp only [matchWsOrderBy] at h
  by_cases hw1 : (l.takeWhile isWsChar).isEmpty = true
  · rw [if_pos hw1] at h
    exact absurd h (by simp)
  · rw [if_neg hw1] at h
    cases hd : dropKwCI "ORDER".data (l.dropWhile isWsChar) with
    | none => simp [hd] at h
    | some r2 =>
      simp only [hd] at h
      by_cases hw2 : (r2.takeWhile isWsChar).isEmpty = true
      · rw [if_pos hw2] at h
        exact absurd h (by simp)
      · rw [if_neg hw2] at h
        cases hb : dropKwCI "BY".data (r2.dropWhile isWsChar) with
        | none => simp [hb] at h
        | some r3 => simp only [hb] at h; cases h; omega

theorem matchWsLimit_pos {l : List Char} {k : Nat}
    (h : matchWsLimit l = some k) : 0 < k := by
  simp only [matchWsLimit] at h
  by_cases hw1 : (l.takeWhile isWsChar).isEmpty = true
  · rw [if_pos hw1] at h
    exact absurd h (by simp)
  · rw [if_neg hw1] at h
    cases hd : dropKwCI "LIMIT".data (l.dropWhile isWsChar) with
    | none => simp [hd] at h
    | some r1 =>
      simp only [hd] at h
      cases h
      simp only [List.isEmpty_iff] at hw1
      have : 0 < (l.takeWhile isWsChar).length := List.length_pos.mpr hw1
      omega

/-- `re.sub(r'(HAVING\s+)', r'\1COUNT(*) >= n AND ', sql, IGNORECASE)`. -/
def subHaving (n : Nat) : List Char → List Char
  | [] => []
  | c :: cs =>
    match h : matchHavingWs (c :: cs) with
    | some k =>
      (c :: cs).take k ++ countAndText n ++ subHaving n ((c :: cs).drop k)
    | none => c :: subHaving n cs
termination_by l => l.length
decreasing_by
  · have := matchHavingWs_pos h
    simp only [List.length_drop, List.length_cons]
    omega
  · simp

/-- `re.sub(r'(\s+ORDER\s+BY)', ' HAVING COUNT(*) >= n\1', sql, IGNORECASE)`. -/
def subOrderBy (n : Nat) : List Char → List Char
  | [] => []
  | c :: cs =>
    match h : matchWsOrderBy (c :: cs) with
    | some k =>
      havingText n ++ (c :: cs).take k ++ subOrderBy n ((c :: cs).drop k)
    | none => c :: subOrderBy n cs
termination_by l => l.length
decreasing_by
  · have := matchWsOrderBy_pos h
    simp only [List.length_drop, List.length_cons]
    omega
  · simp

/-- `re.sub(r'(\s+LIMIT)', ' HAVING COUNT(*) >= n\1', sql, IGNORECASE)`. -/
def subLimit (n : Nat) : List Char → List Char
  | [] => []
  | c :: cs =>
    match h : matchWsLimit (c :: cs) with
    | some k =>
      havingText n ++ (c :: cs).take k ++ subLimit n ((c :: cs).drop k)
    | none => c :: subLimit n cs
termination_by l => l.length
decreasing_by
  · have := matchWsLimit_pos h
    simp only [List.length_drop, List.length_cons]
    omega
  · simp

/-- Python `str.rstrip(';')`. -/
def rstripSemi (l : List Char) : List Char :=
  (l.reverse.dropWhile (fun c => c = ';')).reverse

/-- `apply_min_group_size` from `agent/sql_validator.py`. -/
def apply_min_group_size (sql : String) (min_size : Nat) : String :=
  if containsL "GROUP BY".data (upperL sql.data) then
    if containsL "HAVING".data (upperL sql.data) then
      ⟨subHaving min_size sql.data⟩
    else if containsL "ORDER BY".data (upperL sql.data) then
      ⟨subOrderBy min_size sql.data⟩
    else if containsL "LIMIT".data (upperL sql.data) then
      ⟨subLimit min_size sql.data⟩
    else ⟨rstripSemi sql.data ++ havingText min_size⟩
  else sql

/-! ## Metric-SQL compiler (`agent/graph.py`, `_compile_metric_sql`)

The catalog lookup `get_data_product(dp)` (used only to ask whether the data
product has a `date_received` column) is an external data file; it is passed
in as the predicate `dpHasDateReceived`. -/

/-- The catalog metric record fields the compiler reads. -/
structure Metric where
  metric_id : String
  version : String
  name : String
  data_product : String
deriving DecidableEq

/-- The plan's filter map (fixed keys; `none` means key absent). -/
structure Filters where
  date_range : Option String
  year : Option Int
  state : Option String
  region : Option String
deriving DecidableEq

/-- The DSL plan built by `step_build_dsl_plan` (plus the flags
`step_apply_constraints` may set). -/
structure Plan where
  metric_id : String
  metric_version : String
  data_product : String
  aggregation : String
  dimensions : List String
  filters : Filters
  columns_needed : List ColumnRef
  wants_export : Bool
  redact_narrative : Bool
  mask_sensitive : Bool
  force_time_grain : Option String
deriving DecidableEq

/-- `if name not in dims: dims.append(name)`. -/
def grainAppend (dims : List String) (name : String) : List String :=
  if dims.contains name then dims else dims ++ [name]

/-- The dimension list after the forced-time-grain injection at the top of
`_compile_metric_sql`. -/
def effective_dims (plan : Plan) : List String :=
  let d1 := if plan.force_time_grain = some "month" then
      (if plan.data_product = "dp_complaints" then
        grainAppend plan.dimensions "date_month"
      else plan.dimensions)
    else plan.dimensions
  if plan.force_time_grain = some "quarter" then
    (if plan.data_product = "dp_complaints" then grainAppend d1 "complaint_quarter"
     else if plan.data_product = "dp_call_reports" then grainAppend d1 "quarter"
     else d1)
  else d1

/-- The fixed per-metric aggregation-expression table. -/
def metricAggExpr (metric_id agg : String) : String :=
  if metric_id = "complaint_count" then "COUNT(*) AS complaint_count"
  else if metric_id = "timely_response_rate" then
    "AVG(CASE WHEN timely_response = 'Yes' THEN 1 ELSE 0 END) AS timely_response_rate"
  else if metric_id = "dispute_rate" then
    "AVG(CASE WHEN consumer_disputed = 'Yes' THEN 1 ELSE 0 END) AS dispute_rate"
  else if metric_id = "narrative_request_count" then
    "COUNT(consumer_narrative) AS narrative_request_count"
  else if metric_id = "net_income_sum" then "SUM(net_income) AS net_income_sum"
  else if metric_id = "net_income_avg" then "AVG(net_income) AS net_income_avg"
  else if metric_id = "net_income_margin_avg" then
    "AVG(CAST(net_income AS DOUBLE)/NULLIF(CAST(total_assets AS DOUBLE),0)) AS net_income_margin_avg"
  else if metric_id = "deposits_sum" then "SUM(total_deposits) AS deposits_sum"
  else if metric_id = "deposits_avg" then "AVG(total_deposits) AS deposits_avg"
  else if metric_id = "assets_sum" then "SUM(total_assets) AS assets_sum"
  else if metric_id = "deposit_to_asset_ratio_avg" then
    "AVG(deposit_to_asset_ratio) AS deposit_to_asset_ratio_avg"
  else if metric_id = "tier1_ratio_avg" then
    "AVG(tier1_capital_ratio) AS tier1_ratio_avg"
  else if metric_id = "npa_ratio" then
    "AVG(CAST(non_performing_assets AS DOUBLE)/NULLIF(CAST(total_assets AS DOUBLE),0)) AS npa_ratio"
  else agg ++ "(*) AS metric_value"

/-- `re.sub(r'[^A-Z]', '', str(state))[:2]`. -/
def sanitizeState (s : String) : String :=
  ⟨(s.data.filter (fun c => 'A' ≤ c && c ≤ 'Z')).take 2⟩

/-- `re.sub(r'[^a-z_]', '', str(region).lower())`. -/
def sanitizeRegion (s : String) : String :=
  ⟨(lowerL s.data).filter (fun c => ('a' ≤ c && c ≤ 'z') || c = '_')⟩

/-- The `SELECT` list: dimensions, the metric aggregation, and the literal
redacted-narrative column when `redact_narrative` is set. -/
def selectParts (metric : Metric) (plan : Plan) (dims : List String) :
    List String :=
  dims ++ [metricAggExpr metric.metric_id plan.aggregation] ++
    (if plan.redact_narrative then ["'[REDACTED]' AS consumer_narrative"] else [])

/-- The `WHERE` predicates: tautology plus the date-range / year / state /
region filters present in the plan. -/
def whereParts (dp : String) (filters : Filters)
    (dpHasDateReceived : String → Bool) : List String :=
  ["1=1"] ++
  (match filters.date_range with
   | some dr =>
     if dr = "last_12_months" then
       ["date_received >= CURRENT_DATE - INTERVAL '12 months'"]
     else if dr = "last_quarter" then
       ["date_received >= CURRENT_DATE - INTERVAL '3 months'"]
     else []
   | none => []) ++
  (match filters.year with
   | some y =>
     if dpHasDateReceived dp then
       ["EXTRACT(YEAR FROM date_received) = " ++ toString y]
     else ["quarter LIKE '" ++ toString y ++ "%'"]
   | none => []) ++
  (match filters.state with
   | some s => ["state = '" ++ sanitizeState s ++ "'"]
   | none => []) ++
  (match filters.region with
   | some r =>
     if dp = "dp_complaints" then ["region = '" ++ sanitizeRegion r ++ "'"]
     else if dp = "dp_call_reports" then
       ["bank_region = '" ++ sanitizeRegion r ++ "'"]
     else []
   | none => [])

/-- `_compile_metric_sql` from `agent/graph.py`. -/
def compile_metric_sql (dpHasDateReceived : String → Bool) (metric : Metric)
    (plan : Plan) : String :=
  match effective_dims plan with
  | [] =>
    "SELECT " ++ ", ".intercalate (selectParts metric plan []) ++
    " FROM " ++ plan.data_product ++
    " WHERE " ++ " AND ".intercalate (whereParts plan.data_product plan.filters dpHasDateReceived)
  | d0 :: drest =>
    "SELECT " ++ ", ".intercalate (selectParts metric plan (d0 :: drest)) ++
    " FROM " ++ plan.data_product ++
    " WHERE " ++ " AND ".intercalate (whereParts plan.data_product plan.filters dpHasDateReceived) ++
    " GROUP BY " ++ ", ".intercalate (d0 :: drest) ++
    " ORDER BY " ++ d0

theorem dropKwCI_some : ∀ (kw l r : List Char), dropKwCI kw l = some r →
    upperL (l.take kw.length) = kw ∧ r = l.drop kw.length
  | [], l, r, h => by
    simp only [dropKwCI, Option.some.injEq] at h
    subst h
    simp [upperL]
  | k :: ks, [], r, h => by simp [dropKwCI] at h
  | k :: ks, c :: cs, r, h => by
    simp only [dropKwCI] at h
    split at h
    · rename_i hup
      obtain ⟨h1, h2⟩ := dropKwCI_some ks cs r h
      refine ⟨?_, by simpa using h2⟩
      simp only [List.length_cons, List.take_succ_cons, upperL, List.map_cons,
        hup, List.cons.injEq, true_and]
      exact h1
    · exact absurd h (by simp)

theorem matchHavingWs_some_head {l : List Char} {k : Nat}
    (h : matchHavingWs l = some k) : upperL (l.take 6) = "HAVING".data := by
  simp only [matchHavingWs] at h
  cases hd : dropKwCI "HAVING".data l with
  | none => simp [hd] at h
  | some r => exact (dropKwCI_some _ _ _ hd).1

theorem contains_of_contains_tail {pat : List Char} {c : Char} {cs : List Char}
    (h : containsL pat (upperL cs) = true) :
    containsL pat (upperL (c :: cs)) = true := by
  apply containsL_of_part
  have hinf := (containsL_iff _ _).mp h
  rw [upperL, List.map_cons]
  exact List.infix_cons hinf

theorem not_contains_tail {pat : List Char} {c : Char} {cs : List Char}
    (h : containsL pat (upperL (c :: cs)) = false) :
    containsL pat (upperL cs) = false := by
  cases hc : containsL pat (upperL cs)
  · rfl
  · rw [contains_of_contains_tail hc] at h
    exact absurd h (by simp)

theorem subHaving_id (n : Nat) : ∀ l : List Char,
    containsL "HAVING".data (upperL l) = false → subHaving n l = l
  | [], _ => by simp [subHaving]
  | c :: cs, h => by
    simp only [subHaving]
    split
    · rename_i k hk
      exfalso
      have h6 := matchHavingWs_some_head hk
      have hpre : "HAVING".data <+: upperL (c :: cs) := by
        rw [← h6, upperL, List.map_take]
        exact List.take_prefix 6 _
      rw [containsL_of_part hpre.isInfix] at h
      exact absurd h (by simp)
    · exact congrArg (c :: ·) (subHaving_id n cs (not_contains_tail h))

theorem take_having_agree {m : Nat} (hm : m ≤ 5) :
    ("HAVING ".data).take m = ("HAVIN".data).take m := by
  interval_cases m <;> rfl

theorem prefix_append_of_prefix {t u l : List Char} (h : t <+: u) :
    l ++ t <+: l ++ u := by
  obtain ⟨v, hv⟩ := h
  exact ⟨v, by rw [List.append_assoc, hv]⟩

theorem subHaving_through (n : Nat) : ∀ (a b : List Char),
    containsL "HAVING".data (upperL (a ++ "HAVIN".data)) = false →
    containsL "HAVING".data (upperL b) = false →
    (∀ c, b.head? = some c → isWsChar c = false) →
    subHaving n (a ++ "HAVING ".data ++ b) =
      a ++ "HAVING ".data ++ countAndText n ++ b
  | [], b, _, hb, hh => by
    simp only [List.nil_append]
    have htw : (' ' :: b).takeWhile isWsChar = [' '] := by
      cases b with
      | nil => rfl
      | cons c bs =>
        have hc := hh c rfl
        simp [List.takeWhile_cons, hc, show isWsChar ' ' = true from rfl]
    have hmatch : matchHavingWs ("HAVING ".data ++ b) = some 7 := by
      simp only [matchHavingWs]
      have hdk : dropKwCI "HAVING".data ("HAVING ".data ++ b) = some (' ' :: b) := rfl
      rw [hdk]
      simp [htw]
    have hstep : subHaving n ("HAVING ".data ++ b) =
        ("HAVING ".data ++ b).take 7 ++ countAndText n ++
          subHaving n (("HAVING ".data ++ b).drop 7) := by
      rw [show ("HAVING ".data ++ b) = 'H' :: ("AVING ".data ++ b) from rfl]
      simp only [subHaving]
      split
      · rename_i k hk
        rw [show ('H' :: ("AVING ".data ++ b)) = "HAVING ".data ++ b from rfl,
          hmatch] at hk
        cases hk
        rfl
      · rename_i hk
        rw [show ('H' :: ("AVING ".data ++ b)) = "HAVING ".data ++ b from rfl,
          hmatch] at hk
        exact absurd hk (by simp)
    rw [hstep, List.take_left' (by rfl), List.drop_left' (by rfl),
      subHaving_id n b hb]
  | c :: a2, b, ha, hb, hh => by
    have hstep : subHaving n ((c :: a2) ++ "HAVING ".data ++ b) =
        c :: subHaving n (a2 ++ "HAVING ".data ++ b) := by
      rw [show ((c :: a2) ++ "HAVING ".data ++ b) =
        c :: (a2 ++ "HAVING ".data ++ b) by simp]
      simp only [subHaving]
      split
      · rename_i k hk
        exfalso
        have h6 := matchHavingWs_some_head hk
        rw [show (c :: (a2 ++ "HAVING ".data ++ b)) =
          (c :: a2) ++ "HAVING ".data ++ b by simp] at h6
        have hpre : ((c :: a2) ++ "HAVING ".data ++ b).take 6 <+:
            (c :: a2) ++ "HAVIN".data := by
          by_cases hlen : 6 ≤ (c :: a2).length
          · rw [List.append_assoc, List.take_append_of_le_length hlen]
            exact (List.take_prefix 6 (c :: a2)).trans (List.prefix_append _ _)
          · push_neg at hlen
            rw [List.append_assoc, List.take_append_eq_append_take,
              List.take_of_length_le (by omega)]
            apply prefix_append_of_prefix
            rw [List.take_append_of_le_length
                (by
                  have : (c :: a2).length ≤ 5 := by omega
                  show 6 - (c :: a2).length ≤ ("HAVING ".data).length
                  simp only [List.length_cons] at this ⊢
                  omega),
              take_having_agree (by
                have : 1 ≤ (c :: a2).length := by simp
                omega)]
            exact List.take_prefix _ _
        have hcontains : containsL "HAVING".data
            (upperL ((c :: a2) ++ "HAVIN".data)) = true := by
          apply containsL_of_part
          have hp2 : "HAVING".data <+: upperL ((c :: a2) ++ "HAVIN".data) := by
            rw [← h6]
            exact hpre.map upChar
          exact hp2.isInfix
        rw [hcontains] at ha
        exact absurd ha (by simp)
      · rfl
    rw [hstep]
    have ha2 : containsL "HAVING".data (upperL (a2 ++ "HAVIN".data)) = false := by
      apply not_contains_tail (c := c)
      rw [show (c :: (a2 ++ "HAVIN".data)) = (c :: a2) ++ "HAVIN".data by simp]
      exact ha
    rw [subHaving_through n a2 b ha2 hb hh]
    simp

theorem pattern_infix_havingText (n : Nat) :
    ("HAVING COUNT(*) >= " ++ toString n).data <:+: havingText n := by
  refine ⟨[' '], [], ?_⟩
  simp [havingText, String.data_append, List.append_assoc]

theorem matchWsOrderBy_here (x : List Char) :
    matchWsOrderBy (" ORDER BY ".data ++ x) = some 9 := rfl

theorem subOrderBy_inserts (n : Nat) : ∀ l : List Char,
    (∃ i, (matchWsOrderBy (l.drop i)).isSome = true) →
    containsL ("HAVING COUNT(*) >= " ++ toString n).data (subOrderBy n l) = true
  | [], h => by
    exfalso
    obtain ⟨i, hi⟩ := h
    simp [List.drop_nil, matchWsOrderBy] at hi
  | c :: cs, h => by
    simp only [subOrderBy]
    split
    · rename_i k hk
      apply containsL_of_part
      exact (pattern_infix_havingText n).trans
        ⟨[], (c :: cs).take k ++ subOrderBy n ((c :: cs).drop k), by simp⟩
    · rename_i hk
      obtain ⟨i, hi⟩ := h
      cases i with
      | zero =>
        rw [List.drop_zero, hk] at hi
        simp at hi
      | succ j =>
        have hrec := subOrderBy_inserts n cs ⟨j, by simpa using hi⟩
        simp only [containsL, hrec, Bool.or_true]

/-- C7: on any compiled plan with a non-empty (grain-resolved) dimension
list, `apply_min_group_size` produces SQL containing `HAVING COUNT(*) >= n`
with `n` the active `min_group_size` (default 10, as `step_compile_sql`
resolves it); on a plan with an empty dimension list the statement is left
unchanged (no `HAVING` clause is added); and an existing `HAVING` clause is
extended by prepending the anonymity conjunct, never replaced. -/
theorem claim_C7_having_min_group_size :
    (∀ (f : String → Bool) (metric : Metric) (plan : Plan) (c : Constraints),
      effective_dims plan ≠ [] →
      containsL "HAVING".data
        (upperL (compile_metric_sql f metric plan).data) = false →
      containsL ("HAVING COUNT(*) >= " ++
          toString (c.min_group_size.getD 10)).data
        (apply_min_group_size (compile_metric_sql f metric plan)
          (c.min_group_size.getD 10)).data = true) ∧
    (∀ (f : String → Bool) (metric : Metric) (plan : Plan) (n : Nat),
      effective_dims plan = [] →
      containsL "GROUP BY".data
        (upperL (compile_metric_sql f metric plan).data) = false →
      apply_min_group_size (compile_metric_sql f metric plan) n =
        compile_metric_sql f metric plan) ∧
    (∀ (a b : List Char) (n : Nat),
      containsL "GROUP BY".data (upperL a) = true →
      containsL "HAVING".data (upperL (a ++ "HAVIN".data)) = false →
      containsL "HAVING".data (upperL b) = false →
      (∀ c, b.head? = some c → isWsChar c = false) →
      apply_min_group_size ⟨a ++ "HAVING ".data ++ b⟩ n =
        ⟨a ++ ("HAVING COUNT(*) >= " ++ toString n ++ " AND ").data ++ b⟩) := by
  refine ⟨?_, ?_, ?_⟩
  · intro f metric plan c hdims hhav
    obtain ⟨d0, drest, hd⟩ : ∃ d0 drest, effective_dims plan = d0 :: drest := by
      cases hd : effective_dims plan with
      | nil => exact absurd hd hdims
      | cons d0 drest => exact ⟨d0, drest, rfl⟩
    have hsql : compile_metric_sql f metric plan =
        "SELECT " ++ ", ".intercalate (selectParts metric plan (d0 :: drest)) ++
        " FROM " ++ plan.data_product ++
        " WHERE " ++ " AND ".intercalate
          (whereParts plan.data_product plan.filters f) ++
        " GROUP BY " ++ ", ".intercalate (d0 :: drest) ++
        " ORDER BY " ++ d0 := by
      unfold compile_metric_sql
      rw [hd]
    have hdata : (compile_metric_sql f metric plan).data =
        ("SELECT " ++ ", ".intercalate (selectParts metric plan (d0 :: drest)) ++
         " FROM " ++ plan.data_product ++
         " WHERE " ++ " AND ".intercalate
           (whereParts plan.data_product plan.filters f) ++
         " GROUP BY " ++ ", ".intercalate (d0 :: drest)).data ++
        (" ORDER BY ".data ++ d0.data) := by
      rw [hsql]
      simp [String.data_append, List.append_assoc]
    have hdataGB : (compile_metric_sql f metric plan).data =
        ("SELECT " ++ ", ".intercalate (selectParts metric plan (d0 :: drest)) ++
         " FROM " ++ plan.data_product ++
         " WHERE " ++ " AND ".intercalate
           (whereParts plan.data_product plan.filters f)).data ++
        " GROUP BY ".data ++
        (", ".intercalate (d0 :: drest) ++ " ORDER BY " ++ d0).data := by
      rw [hsql]
      simp [String.data_append, List.append_assoc]
    have hGB : containsL "GROUP BY".data
        (upperL (compile_metric_sql f metric plan).data) = true := by
      apply containsL_of_part
      rw [hdataGB]
      simp only [upperL, List.map_append]
      have h0 : "GROUP BY".data <:+: List.map upChar " GROUP BY ".data :=
        (containsL_iff _ _).mp (by decide)
      exact h0.trans (List.infix_append _ _ _)
    have hOB : containsL "ORDER BY".data
        (upperL (compile_metric_sql f metric plan).data) = true := by
      apply containsL_of_part
      rw [hdata]
      simp only [upperL, List.map_append]
      have h0 : "ORDER BY".data <:+: List.map upChar " ORDER BY ".data :=
        (containsL_iff _ _).mp (by decide)
      exact h0.trans (((List.prefix_append _ _).isInfix).trans
        ((List.suffix_append _ _).isInfix))
    have happly : apply_min_group_size (compile_metric_sql f metric plan)
        (c.min_group_size.getD 10) =
        ⟨subOrderBy (c.min_group_size.getD 10)
          (compile_metric_sql f metric plan).data⟩ := by
      unfold apply_min_group_size
      rw [hGB, hhav, hOB]
      simp
    rw [happly]
    apply subOrderBy_inserts
    refine ⟨("SELECT " ++ ", ".intercalate (selectParts metric plan (d0 :: drest)) ++
      " FROM " ++ plan.data_product ++
      " WHERE " ++ " AND ".intercalate
        (whereParts plan.data_product plan.filters f) ++
      " GROUP BY " ++ ", ".intercalate (d0 :: drest)).data.length, ?_⟩
    rw [hdata, List.drop_left, matchWsOrderBy_here]
    rfl
  · intro f metric plan n hdims hGB
    unfold apply_min_group_size
    rw [hGB]
    simp
  · intro a b n hGBa hhav hb hhead
    have hGBw : containsL "GROUP BY".data
        (upperL (a ++ "HAVING ".data ++ b)) = true := by
      apply containsL_of_part
      simp only [upperL, List.map_append]
      exact ((containsL_iff _ _).mp hGBa).trans
        ((List.prefix_append _ _).trans (List.prefix_append _ _)).isInfix
    have hHw : containsL "HAVING".data
        (upperL (a ++ "HAVING ".data ++ b)) = true := by
      apply containsL_of_part
      simp only [upperL, List.map_append]
      have h0 : "HAVING".data <:+: List.map upChar "HAVING ".data :=
        (containsL_iff _ _).mp (by decide)
      exact h0.trans (List.infix_append _ _ _)
    have hmk : (⟨a ++ "HAVING ".data ++ b⟩ : String).data =
        a ++ "HAVING ".data ++ b := rfl
    unfold apply_min_group_size
    rw [hmk, hGBw, hHw]
    simp only [if_true]
    rw [subHaving_through n a b hhav hb hhead]
    apply congrArg String.mk
    simp [countAndText, String.data_append, List.append_assoc]

/-- Witness for C7: a grouped single-dimension plan gets the `HAVING
COUNT(*) >= 10` clause, and an existing `HAVING` clause is extended
conjunctively. -/
theorem claim_C7_having_min_group_size_witness :
    containsL ("HAVING COUNT(*) >= " ++
        toString ((noConstraints : Constraints).min_group_size.getD 10)).data
      (apply_min_group_size
        (compile_metric_sql (fun _ => false)
          ⟨"complaint_count", "1.0.0", "Complaint count", "dp_complaints"⟩
          ⟨"complaint_count", "1.0.0", "dp_complaints", "COUNT", ["state"],
           ⟨none, none, none, none⟩, [], false, false, false, none⟩)
        ((noConstraints : Constraints).min_group_size.getD 10)).data = true ∧
    apply_min_group_size
        ⟨"SELECT a FROM dp_x GROUP BY a ".data ++ "HAVING ".data ++ "COUNT(a) > 5".data⟩
        10 =
      ⟨"SELECT a FROM dp_x GROUP BY a ".data ++
        ("HAVING COUNT(*) >= " ++ toString (10 : Nat) ++ " AND ").data ++
        "COUNT(a) > 5".data⟩ := by
  constructor
  · exact claim_C7_having_min_group_size.1 (fun _ => false)
      ⟨"complaint_count", "1.0.0", "Complaint count", "dp_complaints"⟩
      ⟨"complaint_count", "1.0.0", "dp_complaints", "COUNT", ["state"],
       ⟨none, none, none, none⟩, [], false, false, false, none⟩
      noConstraints (by decide) (by decide)
  · exact claim_C7_having_min_group_size.2.2
      "SELECT a FROM dp_x GROUP BY a ".data "COUNT(a) > 5".data 10
      (by decide) (by decide) (by decide) (by decide)

/-! ## Quality gate (`agent/quality.py`)

The DuckDB promotion registry and table row counts are the external store;
they enter as an environment: `promoteStatus` is the `promote_status` lookup
(`none` covers both a missing table, whose exception is swallowed, and a
missing row) and `rowCount` is `SELECT COUNT(*)` (`none` when the table does
not exist and the query raises).  Note `fetchone()` on the count query
returns a one-element tuple, which is truthy even for a zero count. -/

/-- A row of the `promote_status` registry table. -/
structure RegistryRow where
  promoted : Bool
  last_promoted : Option String
  dbt_passed : Bool
  ge_passed : Bool
deriving DecidableEq

/-- The database environment the gate queries. -/
structure DBEnv where
  promoteStatus : String → Option RegistryRow
  rowCount : String → Option Nat
  now : String

/-- The per-product status dict built by `_check_product_quality`. -/
structure ProductStatus where
  promoted : Bool
  freshness : Option String
  last_updated : Option String
  row_count : Nat
  dbt_tests_passed : Bool
  ge_checks_passed : Bool
  queryable : Bool
  issues : List String
deriving DecidableEq

/-- Python truthiness of an optional string (`None` and `""` are falsy). -/
def truthyStr : Option String → Bool
  | some s => !(s = "")
  | none => false

/-- `_VALID_TABLE_RE`: `^dp_[a-z_][a-z0-9_]*$`. -/
def valid_table_name (s : String) : Bool :=
  match s.data with
  | 'd' :: 'p' :: '_' :: c :: rest =>
    (('a' ≤ c && c ≤ 'z') || c = '_') &&
      rest.all (fun d => ('a' ≤ d && d ≤ 'z') || ('0' ≤ d && d ≤ '9') || d = '_')
  | _ => false

/-- `_check_product_quality` from `agent/quality.py`, for a present database
connection. -/
def check_product_quality (env : DBEnv) (ds_id : String) : ProductStatus :=
  let s0 : ProductStatus := ⟨false, none, none, 0, false, false, false, []⟩
  let s1 := match env.promoteStatus ds_id with
    | some row =>
      { s0 with
        promoted := row.promoted,
        last_updated := row.last_promoted,
        dbt_tests_passed := row.dbt_passed,
        ge_checks_passed := row.ge_passed,
        queryable := row.promoted }
    | none => s0
  let s2 :=
    if valid_table_name ds_id then
      match env.rowCount ds_id with
      | some n =>
        if truthyStr s1.last_updated then { s1 with row_count := n }
        else
          { s1 with
            row_count := n,
            freshness := some env.now,
            promoted := true,
            queryable := true,
            dbt_tests_passed := true,
            ge_checks_passed := true }
      | none =>
        { s1 with issues := s1.issues ++ ["Table " ++ ds_id ++ " does not exist"] }
    else { s1 with issues := s1.issues ++ ["Table " ++ ds_id ++ " does not exist"] }
  if s2.queryable then s2
  else
    { s2 with issues := s2.issues ++
        ["Data product " ++ ds_id ++ " is not promoted or quality gates failed"] }

/-- `quality_status` from `agent/quality.py`. -/
def quality_status (ids : List String) (env : DBEnv) :
    List (String × ProductStatus) :=
  ids.map (fun i => (i, check_product_quality env i))

/-- `check_all_products_queryable` from `agent/quality.py`. -/
def check_all_products_queryable (ids : List String) (env : DBEnv) :
    Bool × List (String × ProductStatus) :=
  (quality_status ids env |>.all (fun p => p.2.queryable), quality_status ids env)

/-- Counterexample to C9 as stated: with no registry entry and an existing
but empty table (`COUNT(*)` returns `0`, and `fetchone()`'s one-element
tuple is truthy), the product is optimistically marked queryable even though
the confirmed row count is zero. -/
theorem claim_C9_counterexample :
    (check_product_quality
      ⟨fun _ => none,
       fun s => if s = "dp_zero" then some 0 else none,
       "2025-01-01T00:00:00+00:00"⟩ "dp_zero").queryable = true ∧
    (check_product_quality
      ⟨fun _ => none,
       fun s => if s = "dp_zero" then some 0 else none,
       "2025-01-01T00:00:00+00:00"⟩ "dp_zero").row_count = 0 := by
  constructor <;> rfl

/-- C9 as amended: with a database connection, (1) when a registry entry with
a truthy last-promotion timestamp exists, `queryable` equals the registry's
promoted flag; (2) when the registry entry is absent (or its timestamp is
unset) the product is optimistically treated as queryable whenever the
`COUNT(*)` query succeeds — i.e. the table exists — regardless of the row
count; (3) when the underlying table does not exist an explicit issue
message is recorded, and a product with no registry entry is then reported
not-queryable with the not-promoted issue. -/
theorem claim_C9_quality_gate (env : DBEnv) (ds : String) :
    (∀ row, env.promoteStatus ds = some row →
      truthyStr row.last_promoted = true →
      (check_product_quality env ds).queryable = row.promoted) ∧
    ((env.promoteStatus ds = none ∨
      ∃ row, env.promoteStatus ds = some row ∧
        truthyStr row.last_promoted = false) →
      valid_table_name ds = true →
      ∀ n, env.rowCount ds = some n →
        (check_product_quality env ds).queryable = true) ∧
    (valid_table_name ds = true → env.rowCount ds = none →
      ("Table " ++ ds ++ " does not exist") ∈
        (check_product_quality env ds).issues ∧
      (env.promoteStatus ds = none →
        (check_product_quality env ds).queryable = false ∧
        ("Data product " ++ ds ++
            " is not promoted or quality gates failed") ∈
          (check_product_quality env ds).issues)) := by
  refine ⟨?_, ?_, ?_⟩
  · intro row hreg htr
    simp only [check_product_quality, hreg]
    by_cases hv : valid_table_name ds = true
    · simp only [hv, if_true]
      cases hrc : env.rowCount ds with
      | some n =>
        simp only [hrc, htr, if_true]
        by_cases hq : row.promoted <;> simp [hq]
      | none =>
        by_cases hq : row.promoted <;> simp [hrc, hq]
    · simp only [Bool.not_eq_true] at hv
      by_cases hq : row.promoted <;> simp [hv, hq]
  · intro hreg hv n hrc
    rcases hreg with hreg | ⟨row, hreg, htr⟩
    · simp [check_product_quality, hreg, hv, hrc, truthyStr]
    · simp [check_product_quality, hreg, hv, hrc, htr]
  · intro hv hrc
    constructor
    · cases hreg : env.promoteStatus ds with
      | some row =>
        by_cases hq : row.promoted <;>
          simp [check_product_quality, hreg, hv, hrc, hq]
      | none => simp [check_product_quality, hreg, hv, hrc]
    · intro hreg
      constructor <;> simp [check_product_quality, hreg, hv, hrc]

/-- Witness for the amended C9 at concrete environments: a promoted registry
row gives queryable, an unpromoted stale row gives not-queryable, an
uninitialized registry with an existing table gives queryable, and a missing
table gives the explicit issue. -/
theorem claim_C9_quality_gate_witness :
    (check_product_quality
      ⟨fun _ => some ⟨true, some "2025-01-01", true, true⟩,
       fun _ => some 5, "now"⟩ "dp_complaints").queryable = true ∧
    (check_product_quality
      ⟨fun _ => some ⟨false, some "2025-01-01", false, false⟩,
       fun _ => some 5, "now"⟩ "dp_complaints").queryable = false ∧
    (check_product_quality
      ⟨fun _ => none, fun _ => some 5, "now"⟩ "dp_complaints").queryable = true ∧
    ("Table dp_missing does not exist") ∈
      (check_product_quality
        ⟨fun _ => none, fun _ => none, "now"⟩ "dp_missing").issues := by
  refine ⟨?_, ?_, ?_, ?_⟩
  · exact (claim_C9_quality_gate
      ⟨fun _ => some ⟨true, some "2025-01-01", true, true⟩, fun _ => some 5, "now"⟩
      "dp_complaints").1 ⟨true, some "2025-01-01", true, true⟩ rfl (by decide)
  · exact (claim_C9_quality_gate
      ⟨fun _ => some ⟨false, some "2025-01-01", false, false⟩, fun _ => some 5, "now"⟩
      "dp_complaints").1 ⟨false, some "2025-01-01", false, false⟩ rfl (by decide)
  · exact (claim_C9_quality_gate
      ⟨fun _ => none, fun _ => some 5, "now"⟩ "dp_complaints").2.1
      (Or.inl rfl) (by decide) 5 rfl
  · exact ((claim_C9_quality_gate
      ⟨fun _ => none, fun _ => none, "now"⟩ "dp_missing").2.2
      (by decide) rfl).1

/-! ## Narrative redaction (`agent/graph.py`, `_redact_text`)

`text.split()` is `wordsW`; the per-word mask keeps the first character of a
word longer than three characters and replaces the rest with `*`, and maps
any shorter word to `***`; the words are re-joined with single spaces. -/

/-- The per-word masking rule from `_redact_text`'s loop body. -/
def maskWord : List Char → List Char
  | [] => ['*', '*', '*']
  | c :: rest =>
    if 2 < rest.length then c :: List.replicate rest.length '*'
    else ['*', '*', '*']

/-- `_redact_text` from `agent/graph.py`. -/
def redact_text (t : String) : String :=
  if t.data.isEmpty || t == "None" then "[REDACTED]"
  else ⟨interWords ((wordsW t.data).map maskWord)⟩

theorem splitW_chars {l : List Char} :
    ∀ w ∈ splitW l, ∀ c ∈ w, isWsChar c = false := by
  induction l with
  | nil =>
    intro w hw c hc
    simp [splitW] at hw
    subst hw
    simp at hc
  | cons d ds ih =>
    intro w hw c hc
    by_cases hd : isWsChar d = true
    · simp only [splitW, hd, if_true] at hw
      rcases List.mem_cons.mp hw with hw | hw
      · subst hw; simp at hc
      · exact ih w hw c hc
    · have hd' : isWsChar d = false := by simpa using hd
      simp only [splitW, hd', Bool.false_eq_true, if_false] at hw
      cases hs : splitW ds with
      | nil => exact absurd hs (splitW_ne_nil ds)
      | cons x xs =>
        rw [hs] at hw
        simp only [List.modifyHead] at hw
        rcases List.mem_cons.mp hw with hw | hw
        · subst hw
          rcases List.mem_cons.mp hc with hc | hc
          · subst hc; exact hd'
          · exact ih x (hs ▸ List.mem_cons_self x xs) c hc
        · exact ih w (hs ▸ List.mem_cons_of_mem x hw) c hc

theorem wordsW_mem_props {l w : List Char} (h : w ∈ wordsW l) :
    w ≠ [] ∧ ∀ c ∈ w, isWsChar c = false := by
  unfold wordsW at h
  have hmem := List.mem_of_mem_filter h
  have hne := List.of_mem_filter h
  refine ⟨?_, splitW_chars w hmem⟩
  simpa using hne

theorem takeWhile_append_all {p : Char → Bool} {t : List Char}
    (h : ∀ c ∈ t, p c = true) (x : List Char) :
    (t ++ x).takeWhile p = t ++ x.takeWhile p := by
  induction t with
  | nil => simp
  | cons c cs ih =>
    simp only [List.cons_append, List.takeWhile_cons,
      h c (List.mem_cons_self c cs), if_true, List.cons.injEq, true_and]
    exact ih (fun d hd => h d (List.mem_cons_of_mem c hd))

theorem dropWhile_append_all {p : Char → Bool} {t : List Char}
    (h : ∀ c ∈ t, p c = true) (x : List Char) :
    (t ++ x).dropWhile p = x.dropWhile p := by
  induction t with
  | nil => simp
  | cons c cs ih =>
    simp only [List.cons_append, List.dropWhile_cons,
      h c (List.mem_cons_self c cs), if_true]
    exact ih (fun d hd => h d (List.mem_cons_of_mem c hd))

theorem wordsW_single_word {w : List Char} (hne : w ≠ [])
    (hch : ∀ c ∈ w, isWsChar c = false) : wordsW w = [w] := by
  cases w with
  | nil => exact absurd rfl hne
  | cons c rest =>
    rw [wordsW_cons_word (hch c (List.mem_cons_self c rest))]
    have h1 : rest.takeWhile (fun d => !isWsChar d) = rest := by
      rw [show rest = rest ++ [] by simp,
        takeWhile_append_all (fun d hd => by
          simp [hch d (List.mem_cons_of_mem c (by simpa using hd))])]
      simp
    have h2 : rest.dropWhile (fun d => !isWsChar d) = [] := by
      rw [show rest = rest ++ [] by simp,
        dropWhile_append_all (fun d hd => by
          simp [hch d (List.mem_cons_of_mem c (by simpa using hd))])]
      simp
    rw [h1, h2, wordsW_nil]

theorem wordsW_word_sep {w rest : List Char} (hne : w ≠ [])
    (hch : ∀ c ∈ w, isWsChar c = false) :
    wordsW (w ++ ' ' :: rest) = w :: wordsW rest := by
  cases w with
  | nil => exact absurd rfl hne
  | cons c w2 =>
    rw [List.cons_append,
      wordsW_cons_word (hch c (List.mem_cons_self c w2))]
    have hall : ∀ d ∈ w2, (fun d => !isWsChar d) d = true := fun d hd => by
      simp [hch d (List.mem_cons_of_mem c hd)]
    have h1 : (w2 ++ ' ' :: rest).takeWhile (fun d => !isWsChar d) = w2 := by
      rw [takeWhile_append_all hall]
      simp [List.takeWhile_cons, isWsChar]
    have h2 : (w2 ++ ' ' :: rest).dropWhile (fun d => !isWsChar d) = ' ' :: rest := by
      rw [dropWhile_append_all hall]
      simp [List.dropWhile_cons, isWsChar]
    rw [h1, h2, wordsW_cons_ws (by simp [isWsChar]) rest]

theorem wordsW_interWords {ws : List (List Char)}
    (h : ∀ w ∈ ws, w ≠ [] ∧ ∀ c ∈ w, isWsChar c = false) :
    wordsW (interWords ws) = ws := by
  induction ws with
  | nil => exact wordsW_nil
  | cons w rest ih =>
    cases rest with
    | nil =>
      obtain ⟨hne, hch⟩ := h w (List.mem_cons_self w [])
      show wordsW w = [w]
      exact wordsW_single_word hne hch
    | cons x xs =>
      obtain ⟨hne, hch⟩ := h w (List.mem_cons_self w (x :: xs))
      rw [interWords_cons_ne (by simp), wordsW_word_sep hne hch]
      rw [ih (fun v hv => h v (List.mem_cons_of_mem w hv))]

theorem maskWord_props {w : List Char} (hne : w ≠ [])
    (hch : ∀ c ∈ w, isWsChar c = false) :
    maskWord w ≠ [] ∧ ∀ c ∈ maskWord w, isWsChar c = false := by
  cases w with
  | nil => exact absurd rfl hne
  | cons c rest =>
    by_cases hlen : 2 < rest.length
    · rw [show maskWord (c :: rest) = c :: List.replicate rest.length '*' by
        simp [maskWord, hlen]]
      refine ⟨by simp, ?_⟩
      intro d hd
      rcases List.mem_cons.mp hd with hd | hd
      · subst hd; exact hch _ (List.mem_cons_self _ rest)
      · rw [List.eq_of_mem_replicate hd]; rfl
    · rw [show maskWord (c :: rest) = ['*', '*', '*'] by simp [maskWord, hlen]]
      refine ⟨by simp, ?_⟩
      intro d hd
      simp only [List.mem_cons, List.not_mem_nil, or_false] at hd
      rcases hd with hd | hd | hd <;> subst hd <;> rfl

/-- C10: for any non-empty text other than the literal `"None"`, redaction
maps the text's whitespace-separated words one-to-one — the output's word
list is the masked input word list — and the mask takes a word longer than
three characters to its first character followed by one mask character per
remaining character, and any word of length at most three to the fixed
three-character mask. -/
theorem claim_C10_narrative_redaction (t : String) (h1 : t ≠ "")
    (h2 : t ≠ "None") :
    wordsW (redact_text t).data = (wordsW t.data).map maskWord ∧
    (∀ w ∈ wordsW t.data,
      (3 < w.length →
        maskWord w = w.take 1 ++ List.replicate (w.length - 1) '*') ∧
      (w.length ≤ 3 → maskWord w = ['*', '*', '*'])) := by
  constructor
  · have hne : t.data ≠ [] := by
      intro hd
      apply h1
      cases t
      simp only at hd
      subst hd
      rfl
    have hred : redact_text t = ⟨interWords ((wordsW t.data).map maskWord)⟩ := by
      unfold redact_text
      rw [if_neg]
      simp [List.isEmpty_iff, hne, h2]
    rw [hred]
    apply wordsW_interWords
    intro w hw
    obtain ⟨v, hv, hvw⟩ := List.mem_map.mp hw
    obtain ⟨hne, hch⟩ := wordsW_mem_props hv
    exact hvw ▸ maskWord_props hne hch
  · intro w hw
    obtain ⟨hne, _⟩ := wordsW_mem_props hw
    cases w with
    | nil => exact absurd rfl hne
    | cons c rest =>
      constructor
      · intro hlen
        simp only [List.length_cons] at hlen
        simp [maskWord, show 2 < rest.length by omega]
      · intro hlen
        simp only [List.length_cons] at hlen
        simp [maskWord, show ¬ (2 < rest.length) by omega]

/-- Witness for C10 at a concrete narrative. -/
theorem claim_C10_narrative_redaction_witness :
    wordsW (redact_text "customer reported a fraud issue").data =
      (wordsW "customer reported a fraud issue".data).map maskWord ∧
    redact_text "customer reported a fraud issue" = "c******* r******* *** f**** i****" :=
  ⟨(claim_C10_narrative_redaction "customer reported a fraud issue"
      (by decide) (by decide)).1,
   by decide⟩

/-! ## Pipeline orchestration (`agent/graph.py`, `process_request`)

The orchestrator's external collaborators — the metadata search over the
catalog files, the OPA server, the DuckDB connection, the filesystem, the
clock/UUID sources and the (mock-)LLM rendering — are supplied as an
environment of oracles; every branch of the orchestration itself is embedded
from the source.  A `List Event` trace records, in order, each invocation of
the policy engine, the SQL compiler, the SQL validator, the quality gate, the
query executor and the evidence-pack writer. -/

/-- Result-dataframe reduct: the orchestrator reads only the column list (to
decide narrative redaction) and the `consumer_narrative` cells it rewrites. -/
structure Df where
  columns : List String
  narrative : List (Option String)
deriving DecidableEq

/-- The evidence pack built by `make_evidence_pack` (`agent/evidence.py`).
The nested version/freshness maps and the constraints dict, which are passed
through to JSON serialization and read by nothing in the pipeline, are
elided. -/
structure EvidencePack where
  request_id : String
  timestamp : String
  request_text : String
  user_role : String
  policy_result : String
  policy_reason : String
  metric_ids : List String
  data_products_used : List String
  final_sql : String
  canonical_sql : String
  sql_hash : String
  row_count : Nat
  suppression_count : Nat
  lineage_event_id : Option String
  export_path : Option String
deriving DecidableEq

/-- `make_evidence_pack` from `agent/evidence.py`: the pack is built once
from its arguments; the ambient UUID (`request_id`) and clock (`timestamp`)
are passed in, and the file write / best-effort DB store (whose failure the
source catches and only logs) are outside the model. -/
def make_evidence_pack (request_id timestamp request_text : String)
    (user : PolicyUser) (policy_decision : Decision)
    (metric_ids data_products_used : List String)
    (sql_text canonical_sql sql_hash : String)
    (row_count suppression_count : Nat) (lineage_event_id : Option String)
    (export_path : Option String) : EvidencePack :=
  { request_id := request_id, timestamp := timestamp,
    request_text := request_text, user_role := user.role,
    policy_result := policy_decision.result,
    policy_reason := policy_decision.reason,
    metric_ids := metric_ids, data_products_used := data_products_used,
    final_sql := sql_text, canonical_sql := canonical_sql,
    sql_hash := sql_hash, row_count := row_count,
    suppression_count := suppression_count,
    lineage_event_id := lineage_event_id, export_path := export_path }

/-- The observable pipeline invocations, in trace order. -/
inductive Event where
  | policyEval (req : PolicyRequest) (d : Decision)
  | compileSql (sql : String)
  | validateSql (sql : String) (ok : Bool)
  | qualityCheck (products : List String) (allOk : Bool)
  | execute (sql : String)
  | evidence (pack : EvidencePack)
deriving DecidableEq

/-- The environment of external collaborators of `process_request`:
`searchMetric` is the top metric of `step_metadata_search` (after its
broader-keyword retry), `none` when nothing matches; `planAgg` / `planDims` /
`planFilters` / `planCols` are the `_detect_aggregation` / `_detect_dimensions`
(whose Python `set` iteration order is ambient) / `_detect_filters` /
catalog-sensitivity results of `step_build_dsl_plan`; `opaDecision` is the OPA
server's answer when reachable; `qualityDb` is `none` when the quality check
raises and `step_quality_check` falls back optimistically; `run_query`,
`export_csv` and `lineage_record` are the DuckDB/filesystem/OpenLineage calls
with `.error` carrying a raised exception's text; `evidenceConnOk` says
whether `get_connection` succeeds inside `step_evidence_pack`; `uuid`,
`nowIso` and `nowStamp` are the ambient UUID and clock readings; and
`policyOnlyText` / `explainText` are the rendered markdown texts (policy-only
summary, mock/LLM explanation) that no later step reads. -/
structure PipelineEnv where
  searchMetric : Option Metric
  planAgg : String
  planDims : List String
  planFilters : Filters
  planCols : List ColumnRef
  opaDecision : Option Decision
  dpHasDateReceived : String → Bool
  qualityDb : Option DBEnv
  run_query : String → Except String (Df × Nat)
  export_csv : String → Except String String
  lineage_record : Except String String
  evidenceConnOk : Bool
  uuid : String
  nowIso : String
  nowStamp : String
  policyOnlyText : String
  explainText : String

/-- `policy_eval` from `agent/policy_client.py`: the OPA answer when the
server responds, else the `_local_policy_eval` fallback. -/
def policy_eval (env : PipelineEnv) (req : PolicyRequest) : Decision :=
  match env.opaDecision with
  | some d => d
  | none => local_policy_eval req

/-- `_wants_narrative` from `agent/graph.py`. -/
def wants_narrative (request : String) : Bool :=
  ["narrative", "text", "description", "verbatim", "raw complaint"].any
    (fun w => containsL w.data (lowerL request.data))

/-- The `wants_export` flag set by `step_build_dsl_plan`. -/
def wants_export_flag (request : String) : Bool :=
  containsL "export".data (lowerL request.data) ||
    containsL "csv".data (lowerL request.data)

/-- `step_apply_constraints` from `agent/graph.py`: fold the decision's
constraints into the DSL plan (Python truthiness on each `get`). -/
def step_apply_constraints (p : Plan) (c : Constraints) : Plan :=
  let p1 := if c.must_redact_narratives.getD false then
      { p with redact_narrative := true } else p
  let p2 := if c.must_mask.getD false then
      { p1 with mask_sensitive := true } else p1
  let p3 := if c.forbid_export.getD false then
      { p2 with wants_export := false } else p2
  let p4 := match c.region_filter with
    | some r =>
      if r = "" then p3 else
        { p3 with filters := { p3.filters with region := some r } }
    | none => p3
  let p5 := if c.must_aggregate_to_month.getD false then
      { p4 with force_time_grain := some "month" } else p4
  if c.must_aggregate_to_quarter.getD false then
    { p5 with force_time_grain := some "quarter" } else p5

/-- The synthetic all-queryable statuses `step_quality_check` records when the
quality check itself raises (`{"queryable": True, "promoted": True}`). -/
def fallback_quality (products : List String) :
    List (String × ProductStatus) :=
  products.map (fun dp => (dp, ⟨true, none, none, 0, false, false, true, []⟩))

/-- The narrative-column rewrite of `step_execute_query`: `_redact_text` on
each truthy cell (`None` and the empty string are falsy and kept). -/
def redact_column (cells : List (Option String)) : List (Option String) :=
  cells.map (fun x => match x with
    | some s => if s = "" then some s else some (redact_text s)
    | none => none)

/-- The response dict built by `_build_response` (`agent/graph.py`); the
`chart_spec` presentation field is elided. -/
structure Response where
  success : Bool
  error : Option String
  results : Option Df
  row_count : Nat
  explanation : String
  evidence_pack : Option EvidencePack
  sql : String
  sql_hash : String
  policy_decision : Option Decision
  export_path : Option String
  quality_info : List (String × ProductStatus)
deriving DecidableEq

/-- `_build_response` from `agent/graph.py`. -/
def build_response (error : Option String) (results : Option Df)
    (row_count : Nat) (explanation : String)
    (evidence_pack : Option EvidencePack) (sql sql_hash : String)
    (policy_decision : Option Decision) (export_path : Option String)
    (quality_info : List (String × ProductStatus)) : Response :=
  { success := error.isNone, error := error,
    results := results, row_count := row_count,
    explanation := match error with | some e => e | none => explanation,
    evidence_pack := evidence_pack, sql := sql, sql_hash := sql_hash,
    policy_decision := policy_decision, export_path := export_path,
    quality_info := quality_info }

/-- Steps 6-10 of `process_request` plus the validation tail of
`step_compile_sql`: `rawSql` is the compiler's output, `sql2` the constrained
SQL after the min-group-size and `max_rows` post-passes.  Inside each branch
the emitted verdicts (`false`/`true`) are the branch conditions' values. -/
def pipeline_exec_phase (env : PipelineEnv) (request : String)
    (user : PolicyUser) (metric : Metric) (plan1 : Plan) (decision : Decision)
    (rawSql sql2 : String) : Response × List Event :=
  if (validate_sql sql2).1 then
    let canonical := normalize_sql sql2
    let shash := hash_sql sql2
    let qres := match env.qualityDb with
      | some db => check_all_products_queryable [metric.data_product] db
      | none => (true, fallback_quality [metric.data_product])
    if qres.1 then
      match env.run_query sql2 with
      | .error msg =>
        (build_response (some ("Query execution error: " ++ msg)) none 0 ""
           none sql2 shash (some decision) none qres.2,
         [Event.compileSql rawSql, Event.validateSql sql2 true,
          Event.qualityCheck [metric.data_product] true, Event.execute sql2])
      | .ok dfn =>
        let df1 := if plan1.redact_narrative &&
            dfn.1.columns.contains "consumer_narrative" then
            { dfn.1 with narrative := redact_column dfn.1.narrative }
          else dfn.1
        let exportRes : Except String (Option String) :=
          if plan1.wants_export && check_export_allowed user.role then
            (env.export_csv ("export_" ++ metric.metric_id ++ "_" ++
              env.nowStamp ++ ".csv")).map some
          else .ok none
        match exportRes with
        | .error msg =>
          (build_response (some ("Query execution error: " ++ msg))
             (some df1) dfn.2 "" none sql2 shash (some decision) none qres.2,
           [Event.compileSql rawSql, Event.validateSql sql2 true,
            Event.qualityCheck [metric.data_product] true, Event.execute sql2])
        | .ok expPath =>
          let lineage : Option String := match env.lineage_record with
            | .ok i => some i
            | .error _ => some "lineage_unavailable"
          if env.evidenceConnOk then
            let pack := make_evidence_pack env.uuid env.nowIso request user
              decision [metric.metric_id] [metric.data_product] sql2 canonical
              shash dfn.2 0 lineage expPath
            (build_response none (some df1) dfn.2 env.explainText (some pack)
               sql2 shash (some decision) expPath qres.2,
             [Event.compileSql rawSql, Event.validateSql sql2 true,
              Event.qualityCheck [metric.data_product] true,
              Event.execute sql2, Event.evidence pack])
          else
            (build_response none (some df1) dfn.2 env.explainText none
               sql2 shash (some decision) expPath qres.2,
             [Event.compileSql rawSql, Event.validateSql sql2 true,
              Event.qualityCheck [metric.data_product] true,
              Event.execute sql2])
    else
      (build_response
         (some ("Quality gates failed for data products: " ++
           ", ".intercalate
             ((qres.2.filter (fun p => !p.2.queryable)).map (fun p => p.1)) ++
           ". Cannot execute query until data products pass quality checks."))
         none 0 "" none sql2 shash (some decision) none qres.2,
       [Event.compileSql rawSql, Event.validateSql sql2 true,
        Event.qualityCheck [metric.data_product] false])
  else
    (build_response (some ("SQL validation failed: " ++ (validate_sql sql2).2))
       none 0 "" none "" "" (some decision) none [],
     [Event.compileSql rawSql, Event.validateSql sql2 false])

/-- Steps 4-5 of `process_request` after a non-DENY decision: constraint
application onto the plan, SQL compilation, and `step_compile_sql`'s
min-group-size and truthy-`max_rows` LIMIT post-passes, then the execution
phase. -/
def pipeline_after_policy (env : PipelineEnv) (request : String)
    (user : PolicyUser) (metric : Metric) (plan0 : Plan)
    (decision : Decision) : Response × List Event :=
  let cons := decision.constraints
  let plan1 := step_apply_constraints plan0 cons
  let rawSql := compile_metric_sql env.dpHasDateReceived metric plan1
  let sql1 := apply_min_group_size rawSql (cons.min_group_size.getD 10)
  let sql2 := match cons.max_rows with
    | some n =>
      if n = 0 then sql1
      else (⟨rstripSemi sql1.data⟩ : String) ++ " LIMIT " ++ toString n
    | none => sql1
  pipeline_exec_phase env request user metric plan1 decision rawSql sql2

/-- `process_request` from `agent/graph.py`, with its invocation trace.  The
DSL plan of `step_build_dsl_plan` is assembled inline (its `columns_needed`
is the environment's catalog-sensitivity result, which is also what
`step_policy_eval` sends to the policy engine). -/
def process_request (env : PipelineEnv) (request : String) (user : PolicyUser)
    (policy_only : Bool) (policy_overrides : Overrides) :
    Response × List Event :=
  match env.searchMetric with
  | none =>
    (build_response
       (some "No matching metrics found for your query. Please try rephrasing.")
       none 0 "" none "" "" none none [], [])
  | some metric =>
    let plan0 : Plan :=
      { metric_id := metric.metric_id, metric_version := metric.version,
        data_product := metric.data_product, aggregation := env.planAgg,
        dimensions := env.planDims, filters := env.planFilters,
        columns_needed := env.planCols,
        wants_export := wants_export_flag request,
        redact_narrative := false, mask_sensitive := false,
        force_time_grain := none }
    if (policy_eval env ⟨user, env.planCols, policy_overrides⟩).result = "DENY" then
      (build_response
         (some ("Policy DENIED: " ++
           (policy_eval env ⟨user, env.planCols, policy_overrides⟩).reason ++
           (if wants_narrative request then
             "\n\nAlternative: You can request aggregated complaint issue counts or redacted examples instead of raw narratives."
            else "")))
         none 0 "" none "" ""
         (some (policy_eval env ⟨user, env.planCols, policy_overrides⟩)) none [],
       [Event.policyEval ⟨user, env.planCols, policy_overrides⟩
          (policy_eval env ⟨user, env.planCols, policy_overrides⟩)])
    else if policy_only then
      (build_response none none 0 env.policyOnlyText none "" ""
         (some (policy_eval env ⟨user, env.planCols, policy_overrides⟩)) none [],
       [Event.policyEval ⟨user, env.planCols, policy_overrides⟩
          (policy_eval env ⟨user, env.planCols, policy_overrides⟩)])
    else
      ((pipeline_after_policy env request user metric plan0
          (policy_eval env ⟨user, env.planCols, policy_overrides⟩)).1,
       Event.policyEval ⟨user, env.planCols, policy_overrides⟩
          (policy_eval env ⟨user, env.planCols, policy_overrides⟩) ::
        (pipeline_after_policy env request user metric plan0
          (policy_eval env ⟨user, env.planCols, policy_overrides⟩)).2)

/-- The trace predicate selecting evidence-pack creations. -/
def isEvidenceEvent : Event → Bool
  | Event.evidence _ => true
  | _ => false

/-! ### Case analysis of the execution phase -/

/-- The five terminal shapes of the execution phase: validation failure,
quality failure, execution/export error, successful run without an evidence
connection, and successful run with the evidence pack, each with the
corresponding trace and response facts. -/
theorem exec_phase_cases (env : PipelineEnv) (request : String)
    (user : PolicyUser) (metric : Metric) (plan1 : Plan) (decision : Decision)
    (rawSql sql2 : String) :
    ((pipeline_exec_phase env request user metric plan1 decision rawSql sql2).2 =
        [Event.compileSql rawSql, Event.validateSql sql2 false] ∧
      ∃ m, (pipeline_exec_phase env request user metric plan1 decision rawSql sql2).1.error = some m) ∨
    ((pipeline_exec_phase env request user metric plan1 decision rawSql sql2).2 =
        [Event.compileSql rawSql, Event.validateSql sql2 true,
         Event.qualityCheck [metric.data_product] false] ∧
      ∃ m, (pipeline_exec_phase env request user metric plan1 decision rawSql sql2).1.error = some m) ∨
    ((pipeline_exec_phase env request user metric plan1 decision rawSql sql2).2 =
        [Event.compileSql rawSql, Event.validateSql sql2 true,
         Event.qualityCheck [metric.data_product] true, Event.execute sql2] ∧
      (∃ m, (pipeline_exec_phase env request user metric plan1 decision rawSql sql2).1.error = some m) ∧
      (pipeline_exec_phase env request user metric plan1 decision rawSql sql2).1.evidence_pack = none) ∨
    (env.evidenceConnOk = false ∧
      (pipeline_exec_phase env request user metric plan1 decision rawSql sql2).2 =
        [Event.compileSql rawSql, Event.validateSql sql2 true,
         Event.qualityCheck [metric.data_product] true, Event.execute sql2] ∧
      (pipeline_exec_phase env request user metric plan1 decision rawSql sql2).1.error = none ∧
      (pipeline_exec_phase env request user metric plan1 decision rawSql sql2).1.evidence_pack = none) ∨
    (∃ pack,
      (pipeline_exec_phase env request user metric plan1 decision rawSql sql2).2 =
        [Event.compileSql rawSql, Event.validateSql sql2 true,
         Event.qualityCheck [metric.data_product] true, Event.execute sql2,
         Event.evidence pack] ∧
      (pipeline_exec_phase env request user metric plan1 decision rawSql sql2).1.error = none ∧
      (pipeline_exec_phase env request user metric plan1 decision rawSql sql2).1.evidence_pack = some pack) := by
  simp only [pipeline_exec_phase]
  split
  · split
    · split
      · exact Or.inr (Or.inr (Or.inl ⟨rfl, ⟨_, rfl⟩, rfl⟩))
      · split
        · exact Or.inr (Or.inr (Or.inl ⟨rfl, ⟨_, rfl⟩, rfl⟩))
        · split
          · exact Or.inr (Or.inr (Or.inr (Or.inr ⟨_, rfl, rfl, rfl⟩)))
          · rename_i hnc
            simp only [Bool.not_eq_true] at hnc
            exact Or.inr (Or.inr (Or.inr (Or.inl ⟨hnc, rfl, rfl, rfl⟩)))
    · exact Or.inr (Or.inl ⟨rfl, ⟨_, rfl⟩⟩)
  · exact Or.inl ⟨rfl, ⟨_, rfl⟩⟩

/-- The execution phase records no policy-evaluation event. -/
theorem exec_phase_no_policy_event (env : PipelineEnv) (request : String)
    (user : PolicyUser) (metric : Metric) (plan1 : Plan) (decision : Decision)
    (rawSql sql2 : String) : ∀ req d,
    Event.policyEval req d ∉
      (pipeline_exec_phase env request user metric plan1 decision rawSql sql2).2 := by
  intro req d hmem
  rcases exec_phase_cases env request user metric plan1 decision rawSql sql2 with
    ⟨h, -⟩ | ⟨h, -⟩ | ⟨h, -⟩ | ⟨-, h, -⟩ | ⟨pack, h, -⟩ <;>
    rw [h] at hmem <;> simp at hmem

/-- In the execution phase, an `execute` event is preceded by an accepting
validation of the same SQL and by an all-queryable quality verdict. -/
theorem exec_phase_execute_after_checks (env : PipelineEnv) (request : String)
    (user : PolicyUser) (metric : Metric) (plan1 : Plan) (decision : Decision)
    (rawSql sql2 : String) : ∀ i s,
    (pipeline_exec_phase env request user metric plan1 decision rawSql sql2).2[i]? =
      some (Event.execute s) →
    (∃ j : Nat, j < i ∧
      (pipeline_exec_phase env request user metric plan1 decision rawSql sql2).2[j]? =
        some (Event.validateSql s true)) ∧
    (∃ k : Nat, ∃ ids : List String, k < i ∧
      (pipeline_exec_phase env request user metric plan1 decision rawSql sql2).2[k]? =
        some (Event.qualityCheck ids true)) := by
  intro i s hi
  rcases exec_phase_cases env request user metric plan1 decision rawSql sql2 with
    ⟨h, -⟩ | ⟨h, -⟩ | ⟨h, -⟩ | ⟨-, h, -⟩ | ⟨pack, h, -⟩ <;> rw [h] at hi ⊢
  · rcases i with - | - | i <;> simp at hi
  · rcases i with - | - | - | i <;> simp at hi
  · rcases i with - | - | - | - | i <;> simp at hi
    subst hi
    exact ⟨⟨1, by omega, rfl⟩, ⟨2, [metric.data_product], by omega, rfl⟩⟩
  · rcases i with - | - | - | - | i <;> simp at hi
    subst hi
    exact ⟨⟨1, by omega, rfl⟩, ⟨2, [metric.data_product], by omega, rfl⟩⟩
  · rcases i with - | - | - | - | - | i <;> simp at hi
    subst hi
    exact ⟨⟨1, by omega, rfl⟩, ⟨2, [metric.data_product], by omega, rfl⟩⟩

/-- With a working evidence connection, the execution phase records exactly
one evidence event on an error-free run and none otherwise. -/
theorem exec_phase_evidence_count (env : PipelineEnv) (request : String)
    (user : PolicyUser) (metric : Metric) (plan1 : Plan) (decision : Decision)
    (rawSql sql2 : String) (hconn : env.evidenceConnOk = true) :
    (pipeline_exec_phase env request user metric plan1 decision rawSql sql2).2.countP
        isEvidenceEvent =
      if (pipeline_exec_phase env request user metric plan1 decision rawSql sql2).1.error = none
      then 1 else 0 := by
  rcases exec_phase_cases env request user metric plan1 decision rawSql sql2 with
    ⟨h, m, he⟩ | ⟨h, m, he⟩ | ⟨h, ⟨m, he⟩, -⟩ | ⟨hnc, -⟩ | ⟨pack, h, he, -⟩
  · rw [h, he]; simp [isEvidenceEvent]
  · rw [h, he]; simp [isEvidenceEvent]
  · rw [h, he]; simp [isEvidenceEvent]
  · rw [hconn] at hnc; cases hnc
  · rw [h, he]; simp [isEvidenceEvent]

/-- An evidence event in the execution phase implies an executed query, an
error-free response, and that the returned pack is the recorded one. -/
theorem exec_phase_evidence_resp (env : PipelineEnv) (request : String)
    (user : PolicyUser) (metric : Metric) (plan1 : Plan) (decision : Decision)
    (rawSql sql2 : String) : ∀ p,
    Event.evidence p ∈
      (pipeline_exec_phase env request user metric plan1 decision rawSql sql2).2 →
    (∃ s, Event.execute s ∈
      (pipeline_exec_phase env request user metric plan1 decision rawSql sql2).2) ∧
    (pipeline_exec_phase env request user metric plan1 decision rawSql sql2).1.error = none ∧
    (pipeline_exec_phase env request user metric plan1 decision rawSql sql2).1.evidence_pack = some p := by
  intro p hp
  rcases exec_phase_cases env request user metric plan1 decision rawSql sql2 with
    ⟨h, -⟩ | ⟨h, -⟩ | ⟨h, -⟩ | ⟨-, h, -⟩ | ⟨pack, h, he, hpk⟩
  · rw [h] at hp; simp at hp
  · rw [h] at hp; simp at hp
  · rw [h] at hp; simp at hp
  · rw [h] at hp; simp at hp
  · rw [h] at hp
    simp only [List.mem_cons, List.not_mem_nil, or_false] at hp
    have hppack : p = pack := by
      rcases hp with hp | hp | hp | hp | hp
      · cases hp
      · cases hp
      · cases hp
      · cases hp
      · simpa using hp
    subst hppack
    exact ⟨⟨sql2, by rw [h]; simp⟩, he, hpk⟩

/-! ### C1 and C3 -/

/-- C1: in every pipeline run, a `compileSql` event is strictly preceded by a
`policyEval` event whose decision is not DENY; an `execute` event is strictly
preceded by an accepting `validateSql` event for the same SQL and by a
`qualityCheck` event reporting every referenced data product queryable; and
when the recorded policy decision is DENY the run contains no `compileSql`
event and returns an empty `sql` field. -/
theorem claim_C1_pipeline_ordering (env : PipelineEnv) (request : String)
    (user : PolicyUser) (policy_only : Bool) (policy_overrides : Overrides) :
    (∀ i s, (process_request env request user policy_only policy_overrides).2[i]? =
        some (Event.compileSql s) →
      ∃ j : Nat, ∃ req : PolicyRequest, ∃ d : Decision, j < i ∧
        (process_request env request user policy_only policy_overrides).2[j]? =
          some (Event.policyEval req d) ∧ d.result ≠ "DENY") ∧
    (∀ i s, (process_request env request user policy_only policy_overrides).2[i]? =
        some (Event.execute s) →
      (∃ j : Nat, j < i ∧
        (process_request env request user policy_only policy_overrides).2[j]? =
          some (Event.validateSql s true)) ∧
      (∃ k : Nat, ∃ ids : List String, k < i ∧
        (process_request env request user policy_only policy_overrides).2[k]? =
          some (Event.qualityCheck ids true))) ∧
    (∀ req d, Event.policyEval req d ∈
        (process_request env request user policy_only policy_overrides).2 →
      d.result = "DENY" →
      (∀ s, Event.compileSql s ∉
        (process_request env request user policy_only policy_overrides).2) ∧
      (process_request env request user policy_only policy_overrides).1.sql = "") := by
  rcases hms : env.searchMetric with - | metric <;>
    simp only [process_request, hms]
  · refine ⟨?_, ?_, ?_⟩
    · intro i s hi; simp at hi
    · intro i s hi; simp at hi
    · intro req d hmem; simp at hmem
  · split
    · rename_i hden
      refine ⟨?_, ?_, ?_⟩
      · intro i s hi
        rcases i with - | i <;> simp at hi
      · intro i s hi
        rcases i with - | i <;> simp at hi
      · intro req d hmem hden'
        refine ⟨?_, rfl⟩
        intro s hs; simp at hs
    · rename_i hden
      split
      · refine ⟨?_, ?_, ?_⟩
        · intro i s hi
          rcases i with - | i <;> simp at hi
        · intro i s hi
          rcases i with - | i <;> simp at hi
        · intro req d hmem hden'
          have h := List.mem_singleton.mp hmem
          injection h with h1 h2
          rw [h2] at hden'
          exact absurd hden' hden
      · simp only [pipeline_after_policy]
        refine ⟨?_, ?_, ?_⟩
        · intro i s hi
          rcases i with - | i
          · simp at hi
          · exact ⟨0, ⟨user, env.planCols, policy_overrides⟩,
              policy_eval env ⟨user, env.planCols, policy_overrides⟩,
              Nat.succ_pos i, by simp, hden⟩
        · intro i s hi
          rcases i with - | i
          · simp at hi
          · rw [List.getElem?_cons_succ] at hi
            obtain ⟨⟨j, hj, hjv⟩, ⟨k, ids, hk, hkq⟩⟩ :=
              exec_phase_execute_after_checks env request user metric _ _ _ _ i s hi
            refine ⟨⟨j + 1, by omega, ?_⟩, ⟨k + 1, ids, by omega, ?_⟩⟩
            · rw [List.getElem?_cons_succ]; exact hjv
            · rw [List.getElem?_cons_succ]; exact hkq
        · intro req d hmem hden'
          rcases List.mem_cons.mp hmem with h | h
          · injection h with h1 h2
            rw [h2] at hden'
            exact absurd hden' hden
          · exact absurd h
              (exec_phase_no_policy_event env request user metric _ _ _ _ req d)

/-- C3: with a working evidence-store connection, a run records exactly one
evidence event when it ends error-free and is not policy-only, and none
otherwise; and any recorded evidence pack implies an executed query, an
error-free response, and that the response returns that same pack. -/
theorem claim_C3_evidence_iff_executed (env : PipelineEnv) (request : String)
    (user : PolicyUser) (policy_only : Bool) (policy_overrides : Overrides)
    (hconn : env.evidenceConnOk = true) :
    ((process_request env request user policy_only policy_overrides).2.countP
        isEvidenceEvent =
      if (process_request env request user policy_only policy_overrides).1.error = none ∧
          policy_only = false then 1 else 0) ∧
    (∀ p, Event.evidence p ∈
        (process_request env request user policy_only policy_overrides).2 →
      (∃ s, Event.execute s ∈
        (process_request env request user policy_only policy_overrides).2) ∧
      (process_request env request user policy_only policy_overrides).1.error = none ∧
      (process_request env request user policy_only policy_overrides).1.evidence_pack =
        some p) := by
  rcases hms : env.searchMetric with - | metric <;>
    simp only [process_request, hms]
  · constructor
    · simp [build_response]
    · intro p hp; simp at hp
  · split
    · constructor
      · simp [build_response, isEvidenceEvent]
      · intro p hp; simp at hp
    · rename_i hden
      split
      · rename_i hpo
        constructor
        · simp [build_response, isEvidenceEvent, hpo]
        · intro p hp; simp at hp
      · rename_i hpo
        have hpo' : policy_only = false := by
          revert hpo; cases policy_only <;> simp
        simp only [pipeline_after_policy]
        constructor
        · rw [List.countP_cons]
          rw [exec_phase_evidence_count env request user metric _ _ _ _ hconn]
          simp [isEvidenceEvent, hpo']
        · intro p hp
          rcases List.mem_cons.mp hp with h | h
          · cases h
          · obtain ⟨⟨s, hs⟩, herr, hpk⟩ :=
              exec_phase_evidence_resp env request user metric _ _ _ _ p h
            exact ⟨⟨s, List.mem_cons_of_mem _ hs⟩, herr, hpk⟩

/-- A concrete environment on which the pipeline runs to completion: a known
metric, an empty dimension list, the local policy fallback, the optimistic
quality fallback, a one-row query result and a working evidence store. -/
def pipelineEnvOk : PipelineEnv :=
  { searchMetric := some ⟨"complaint_count", "1.0.0", "Complaint Count", "dp_complaints"⟩,
    planAgg := "COUNT", planDims := [], planFilters := ⟨none, none, none, none⟩,
    planCols := [], opaDecision := none, dpHasDateReceived := fun _ => true,
    qualityDb := none,
    run_query := fun _ => Except.ok (⟨["complaint_count"], []⟩, 1),
    export_csv := fun f => Except.ok ("artifacts/exports/" ++ f),
    lineage_record := Except.ok "lineage-1", evidenceConnOk := true,
    uuid := "req-0001", nowIso := "2026-10-12T00:00:00+00:00",
    nowStamp := "20261012_000000", policyOnlyText := "", explainText := "ok" }

/-- C1 witness: on the concrete environment the run emits the full six-event
trace, and the ordering property holds for it. -/
theorem claim_C1_pipeline_ordering_witness :
    (process_request pipelineEnvOk "how many complaints"
        ⟨"risk_officer", none, none⟩ false emptyOverrides).2.length = 6 ∧
    ((∀ i s, (process_request pipelineEnvOk "how many complaints"
        ⟨"risk_officer", none, none⟩ false emptyOverrides).2[i]? =
        some (Event.compileSql s) →
      ∃ j : Nat, ∃ req : PolicyRequest, ∃ d : Decision, j < i ∧
        (process_request pipelineEnvOk "how many complaints"
          ⟨"risk_officer", none, none⟩ false emptyOverrides).2[j]? =
          some (Event.policyEval req d) ∧ d.result ≠ "DENY") ∧
    (∀ i s, (process_request pipelineEnvOk "how many complaints"
        ⟨"risk_officer", none, none⟩ false emptyOverrides).2[i]? =
        some (Event.execute s) →
      (∃ j : Nat, j < i ∧
        (process_request pipelineEnvOk "how many complaints"
          ⟨"risk_officer", none, none⟩ false emptyOverrides).2[j]? =
          some (Event.validateSql s true)) ∧
      (∃ k : Nat, ∃ ids : List String, k < i ∧
        (process_request pipelineEnvOk "how many complaints"
          ⟨"risk_officer", none, none⟩ false emptyOverrides).2[k]? =
          some (Event.qualityCheck ids true))) ∧
    (∀ req d, Event.policyEval req d ∈
        (process_request pipelineEnvOk "how many complaints"
          ⟨"risk_officer", none, none⟩ false emptyOverrides).2 →
      d.result = "DENY" →
      (∀ s, Event.compileSql s ∉
        (process_request pipelineEnvOk "how many complaints"
          ⟨"risk_officer", none, none⟩ false emptyOverrides).2) ∧
      (process_request pipelineEnvOk "how many complaints"
        ⟨"risk_officer", none, none⟩ false emptyOverrides).1.sql = "")) :=
  ⟨by decide,
   claim_C1_pipeline_ordering pipelineEnvOk "how many complaints"
     ⟨"risk_officer", none, none⟩ false emptyOverrides⟩

/-- C3 witness: the concrete successful run satisfies the evidence
hypothesis, records exactly one evidence event, and the equivalence holds
for it. -/
theorem claim_C3_evidence_iff_executed_witness :
    pipelineEnvOk.evidenceConnOk = true ∧
    (process_request pipelineEnvOk "how many complaints"
        ⟨"risk_officer", none, none⟩ false emptyOverrides).2.countP
      isEvidenceEvent = 1 ∧
    (((process_request pipelineEnvOk "how many complaints"
        ⟨"risk_officer", none, none⟩ false emptyOverrides).2.countP
        isEvidenceEvent =
      if (process_request pipelineEnvOk "how many complaints"
          ⟨"risk_officer", none, none⟩ false emptyOverrides).1.error = none ∧
          false = false then 1 else 0) ∧
    (∀ p, Event.evidence p ∈
        (process_request pipelineEnvOk "how many complaints"
          ⟨"risk_officer", none, none⟩ false emptyOverrides).2 →
      (∃ s, Event.execute s ∈
        (process_request pipelineEnvOk "how many complaints"
          ⟨"risk_officer", none, none⟩ false emptyOverrides).2) ∧
      (process_request pipelineEnvOk "how many complaints"
        ⟨"risk_officer", none, none⟩ false emptyOverrides).1.error = none ∧
      (process_request pipelineEnvOk "how many complaints"
        ⟨"risk_officer", none, none⟩ false emptyOverrides).1.evidence_pack =
        some p)) :=
  ⟨rfl, by decide,
   claim_C3_evidence_iff_executed pipelineEnvOk "how many complaints"
     ⟨"risk_officer", none, none⟩ false emptyOverrides rfl⟩
